import Mathlib

/-!
Shallow embedding of the mersh mesh-topology core: the label/position model
and connection records of `src/connections.rs`, and the three topology build
passes of `src/topology.rs`.  Rust `usize` indices are modelled as `Nat`
(indices are only compared and used as keys, never wrapped), Rust `Vec` as
`List`, and a Rust panic as `none` of an `Option`-valued computation.
-/

namespace Mersh

/-- Labels of a vertex within an element (`VertexLabel` in connections.rs). -/
inductive VertexLabel
  | V0
  | V1
  | V2
deriving DecidableEq, Repr

/-- Labels of edges within an element (`EdgeLabel` in connections.rs). -/
inductive EdgeLabel
  | E0
  | E1
  | E2
deriving DecidableEq, Repr

/-- Rust `label as usize` for a vertex label. -/
def VertexLabel.toUsize : VertexLabel → Nat
  | .V0 => 0
  | .V1 => 1
  | .V2 => 2

/-- Rust `label as usize` for an edge label. -/
def EdgeLabel.toUsize : EdgeLabel → Nat
  | .E0 => 0
  | .E1 => 1
  | .E2 => 2

/-- Position of an edge within an element (`EdgePosition` in connections.rs). -/
structure EdgePosition where
  label : EdgeLabel
  is_reversed : Bool
deriving DecidableEq, Repr

/-- Mesh edge element (`Edge` with `v: [usize; 2]` and `tag`); `v0`/`v1`
stand for `v[0]`/`v[1]`. -/
structure Edge where
  v0 : Nat
  v1 : Nat
  tag : Nat
deriving DecidableEq, Repr

/-- Mesh triangle element (`Tri` with `v: [usize; 3]` and `tag`). -/
structure Tri where
  v0 : Nat
  v1 : Nat
  v2 : Nat
  tag : Nat
deriving DecidableEq, Repr

/-- Endpoint of an edge indexed by slot, i.e. Rust `e.v[s]` for `s : Fin 2`. -/
def Edge.vslot (e : Edge) : Fin 2 → Nat
  | 0 => e.v0
  | 1 => e.v1

/-- Vertex of a triangle indexed by slot, i.e. Rust `t.v[s]` for `s : Fin 3`. -/
def Tri.vslot (t : Tri) : Fin 3 → Nat
  | 0 => t.v0
  | 1 => t.v1
  | 2 => t.v2

/-- Element arrays of a mesh (`MeshElements`). -/
structure MeshElements where
  edges : List Edge
  tris : List Tri
deriving DecidableEq, Repr

/-- Connection of a vertex with an edge (`VertexToEdge`). -/
structure VertexToEdge where
  edge_index : Nat
  connecting_vertex : VertexLabel
deriving DecidableEq, Repr

/-- Connection of a vertex with a triangle (`VertexToTri`). -/
structure VertexToTri where
  tri_index : Nat
  connecting_vertex : VertexLabel
deriving DecidableEq, Repr

/-- Connection of an edge with an edge (`EdgeToEdge`). -/
structure EdgeToEdge where
  connecting_vertex : VertexLabel
  neighbour : VertexToEdge
deriving DecidableEq, Repr

/-- Connection of an edge with a triangle (`EdgeToTri`). -/
structure EdgeToTri where
  tri_index : Nat
  connecting_edge : EdgePosition
deriving DecidableEq, Repr

/-- Connection of a triangle with a triangle (`TriToTri`). -/
structure TriToTri where
  connecting_edge : EdgeLabel
  neighbour : EdgeToTri
deriving DecidableEq, Repr

/-- `VertexToEdge::new`; the Rust panic on `position > 1` is `none`. -/
def VertexToEdge.new (edge_index position : Nat) : Option VertexToEdge :=
  match position with
  | 0 => some ⟨edge_index, .V0⟩
  | 1 => some ⟨edge_index, .V1⟩
  | _ => none

/-- `VertexToTri::new`; the Rust panic on `position > 2` is `none`. -/
def VertexToTri.new (tri_index position : Nat) : Option VertexToTri :=
  match position with
  | 0 => some ⟨tri_index, .V0⟩
  | 1 => some ⟨tri_index, .V1⟩
  | 2 => some ⟨tri_index, .V2⟩
  | _ => none

/-- `EdgeToEdge::new`; the Rust panic on `position > 1` is `none`. -/
def EdgeToEdge.new (position : Nat) (neighbour : VertexToEdge) : Option EdgeToEdge :=
  match position with
  | 0 => some ⟨.V0, neighbour⟩
  | 1 => some ⟨.V1, neighbour⟩
  | _ => none

/-- `EdgeToTri::new`; the Rust panic on `position > 2` is `none`. -/
def EdgeToTri.new (tri_index position : Nat) (is_reversed : Bool) : Option EdgeToTri :=
  match position with
  | 0 => some ⟨tri_index, ⟨.E0, is_reversed⟩⟩
  | 1 => some ⟨tri_index, ⟨.E1, is_reversed⟩⟩
  | 2 => some ⟨tri_index, ⟨.E2, is_reversed⟩⟩
  | _ => none

/-- `TriToTri::new`; the Rust panic on `position > 2` is `none`. -/
def TriToTri.new (position : Nat) (neighbour : EdgeToTri) : Option TriToTri :=
  match position with
  | 0 => some ⟨.E0, neighbour⟩
  | 1 => some ⟨.E1, neighbour⟩
  | 2 => some ⟨.E2, neighbour⟩
  | _ => none

/-- `EdgeToTri::get_edge_position`: position of an edge in a triangle, an
early-return chain of six equality tests translated as nested ifs. -/
def EdgeToTri.get_edge_position (e : Edge) (t : Tri) : Option EdgePosition :=
  if e.v0 = t.v0 ∧ e.v1 = t.v1 then some ⟨.E0, false⟩
  else if e.v1 = t.v0 ∧ e.v0 = t.v1 then some ⟨.E0, true⟩
  else if e.v0 = t.v1 ∧ e.v1 = t.v2 then some ⟨.E1, false⟩
  else if e.v1 = t.v1 ∧ e.v0 = t.v2 then some ⟨.E1, true⟩
  else if e.v0 = t.v2 ∧ e.v1 = t.v0 then some ⟨.E2, false⟩
  else if e.v1 = t.v2 ∧ e.v0 = t.v0 then some ⟨.E2, true⟩
  else none

/-- `TriToTri::get_common_edge`: try the three canonical edges of `t0`
against `t1` in label order, returning the first success. -/
def TriToTri.get_common_edge (t0 t1 : Tri) : Option (EdgeLabel × EdgePosition) :=
  match EdgeToTri.get_edge_position ⟨t0.v0, t0.v1, t0.tag⟩ t1 with
  | some r => some (.E0, r)
  | none =>
    match EdgeToTri.get_edge_position ⟨t0.v1, t0.v2, t0.tag⟩ t1 with
    | some r => some (.E1, r)
    | none =>
      match EdgeToTri.get_edge_position ⟨t0.v2, t0.v0, t0.tag⟩ t1 with
      | some r => some (.E2, r)
      | none => none

/-- Per-vertex topology lists (`VertexTopology`). -/
structure VertexTopology where
  incident_edges : List VertexToEdge
  incident_tris : List VertexToTri
deriving DecidableEq, Repr

/-- `VertexTopology::new`: empty lists. -/
def VertexTopology.new : VertexTopology := ⟨[], []⟩

/-- Per-edge topology lists (`EdgeTopology`). -/
structure EdgeTopology where
  edge_connections : List EdgeToEdge
  tri_connections : List EdgeToTri
deriving DecidableEq, Repr

/-- `EdgeTopology::new`: empty lists. -/
def EdgeTopology.new : EdgeTopology := ⟨[], []⟩

/-- Per-triangle topology list (`TriTopology`). -/
structure TriTopology where
  tri_connections : List TriToTri
deriving DecidableEq, Repr

/-- `TriTopology::new`: empty list. -/
def TriTopology.new : TriTopology := ⟨[]⟩

/-- `Topology`: vertex count, borrowed element arrays, and the three
index-aligned output arrays. -/
structure Topology where
  nvertices : Nat
  elements : MeshElements
  vertices : List VertexTopology
  edges : List EdgeTopology
  tris : List TriTopology
deriving DecidableEq, Repr

/-- `Topology::new`: built over an already-populated mesh; only the vertex
count and the element arrays of the mesh matter to the topology. -/
def Topology.new (nvertices : Nat) (elements : MeshElements) : Topology :=
  ⟨nvertices, elements, [], [], []⟩

/-- Rust `vec[k] = f(vec[k])` on a list: `none` models the out-of-bounds
panic of indexing when `k ≥ length`. -/
def modifyAt {α : Type} (f : α → α) : List α → Nat → Option (List α)
  | [], _ => none
  | x :: xs, 0 => some (f x :: xs)
  | x :: xs, k + 1 =>
    match modifyAt f xs k with
    | some ys => some (x :: ys)
    | none => none

/-- `vertices[w].incident_edges.push(c)` as a list-state update. -/
def pushIncidentEdge (c : VertexToEdge) (vs : List VertexTopology) (w : Nat) :
    Option (List VertexTopology) :=
  modifyAt (fun vt => ⟨vt.incident_edges ++ [c], vt.incident_tris⟩) vs w

/-- `vertices[w].incident_tris.push(c)` as a list-state update. -/
def pushIncidentTri (c : VertexToTri) (vs : List VertexTopology) (w : Nat) :
    Option (List VertexTopology) :=
  modifyAt (fun vt => ⟨vt.incident_edges, vt.incident_tris ++ [c]⟩) vs w

/-- Edge loop of `build_vertices`: for each edge `i = (v0,v1)` push
`VertexToEdge::new(i,0)` at slot `v0` and `VertexToEdge::new(i,1)` at `v1`. -/
def buildVerticesEdgeLoop : Nat → List Edge → List VertexTopology →
    Option (List VertexTopology)
  | _, [], vs => some vs
  | i, e :: rest, vs => do
    let c0 ← VertexToEdge.new i 0
    let vs1 ← pushIncidentEdge c0 vs e.v0
    let c1 ← VertexToEdge.new i 1
    let vs2 ← pushIncidentEdge c1 vs1 e.v1
    buildVerticesEdgeLoop (i + 1) rest vs2

/-- Triangle loop of `build_vertices`: for each triangle `i = (v0,v1,v2)`
push the three `VertexToTri::new(i,s)` records at slots `v0`,`v1`,`v2`. -/
def buildVerticesTriLoop : Nat → List Tri → List VertexTopology →
    Option (List VertexTopology)
  | _, [], vs => some vs
  | i, t :: rest, vs => do
    let c0 ← VertexToTri.new i 0
    let vs1 ← pushIncidentTri c0 vs t.v0
    let c1 ← VertexToTri.new i 1
    let vs2 ← pushIncidentTri c1 vs1 t.v1
    let c2 ← VertexToTri.new i 2
    let vs3 ← pushIncidentTri c2 vs2 t.v2
    buildVerticesTriLoop (i + 1) rest vs3

/-- Core of `build_vertices`: reads only the vertex count and the element
arrays (clear, resize with empty topologies, then the two loops). -/
def verticesCompute (nvertices : Nat) (elements : MeshElements) :
    Option (List VertexTopology) := do
  let vs0 := List.replicate nvertices VertexTopology.new
  let vs1 ← buildVerticesEdgeLoop 0 elements.edges vs0
  buildVerticesTriLoop 0 elements.tris vs1

/-- `Topology::build_vertices`; `none` is a propagated panic. -/
def Topology.build_vertices (t : Topology) : Option Topology :=
  (verticesCompute t.nvertices t.elements).map fun vs => { t with vertices := vs }

/-- `edges[k].edge_connections.push(c)` as a list-state update. -/
def pushEdgeConnection (c : EdgeToEdge) (ts : List EdgeTopology) (k : Nat) :
    Option (List EdgeTopology) :=
  modifyAt (fun et => ⟨et.edge_connections ++ [c], et.tri_connections⟩) ts k

/-- `edges[k].tri_connections.push(c)` as a list-state update. -/
def pushEdgeTriConnection (c : EdgeToTri) (ts : List EdgeTopology) (k : Nat) :
    Option (List EdgeTopology) :=
  modifyAt (fun et => ⟨et.edge_connections, et.tri_connections ++ [c]⟩) ts k

/-- One guarded push of the edge-to-edge loop: when `cond` holds, build
`EdgeToEdge::new(a, VertexToEdge::new(i1, b))` and push it at slot `i0`. -/
def edgeEdgeStep (i0 : Nat) (cond : Prop) [Decidable cond] (a b i1 : Nat)
    (ts : List EdgeTopology) : Option (List EdgeTopology) :=
  if cond then do
    let c ← VertexToEdge.new i1 b
    let r ← EdgeToEdge.new a c
    pushEdgeConnection r ts i0
  else some ts

/-- Inner loop of the edge-to-edge pass of `build_edges`: for a fixed
`(i0, e0)`, scan all `(i1, e1)` and, when `i1 ≠ i0`, run the four endpoint
tests in source order. -/
def edgeEdgeInner (i0 : Nat) (e0 : Edge) : Nat → List Edge →
    List EdgeTopology → Option (List EdgeTopology)
  | _, [], ts => some ts
  | i1, e1 :: rest, ts =>
    if i1 ≠ i0 then do
      let ts1 ← edgeEdgeStep i0 (e1.v0 = e0.v0) 0 0 i1 ts
      let ts2 ← edgeEdgeStep i0 (e1.v1 = e0.v0) 0 1 i1 ts1
      let ts3 ← edgeEdgeStep i0 (e1.v0 = e0.v1) 1 0 i1 ts2
      let ts4 ← edgeEdgeStep i0 (e1.v1 = e0.v1) 1 1 i1 ts3
      edgeEdgeInner i0 e0 (i1 + 1) rest ts4
    else edgeEdgeInner i0 e0 (i1 + 1) rest ts

/-- Outer loop of the edge-to-edge pass of `build_edges`. -/
def edgeEdgeOuter (es : List Edge) : Nat → List Edge → List EdgeTopology →
    Option (List EdgeTopology)
  | _, [], ts => some ts
  | i0, e0 :: rest, ts => do
    let ts1 ← edgeEdgeInner i0 e0 0 es ts
    edgeEdgeOuter es (i0 + 1) rest ts1

/-- Inner loop of the edge-to-triangle pass of `build_edges`: for a fixed
`(i, e)`, scan all `(j, t)`, and on a matcher hit push
`EdgeToTri::new(j, label as usize, is_reversed)` at slot `i`. -/
def edgeTriInner (i : Nat) (e : Edge) : Nat → List Tri → List EdgeTopology →
    Option (List EdgeTopology)
  | _, [], ts => some ts
  | j, t :: rest, ts => do
    let ts1 ←
      match EdgeToTri.get_edge_position e t with
      | some position => do
        let r ← EdgeToTri.new j position.label.toUsize position.is_reversed
        pushEdgeTriConnection r ts i
      | none => some ts
    edgeTriInner i e (j + 1) rest ts1

/-- Outer loop of the edge-to-triangle pass of `build_edges`. -/
def edgeTriOuter (trs : List Tri) : Nat → List Edge → List EdgeTopology →
    Option (List EdgeTopology)
  | _, [], ts => some ts
  | i, e :: rest, ts => do
    let ts1 ← edgeTriInner i e 0 trs ts
    edgeTriOuter trs (i + 1) rest ts1

/-- Core of `build_edges`: reads only the element arrays (clear, resize with
empty topologies, edge-to-edge pass, then edge-to-triangle pass). -/
def edgesCompute (elements : MeshElements) : Option (List EdgeTopology) := do
  let ts0 := List.replicate elements.edges.length EdgeTopology.new
  let ts1 ← edgeEdgeOuter elements.edges 0 elements.edges ts0
  edgeTriOuter elements.tris 0 elements.edges ts1

/-- `Topology::build_edges`; `none` is a propagated panic. -/
def Topology.build_edges (t : Topology) : Option Topology :=
  (edgesCompute t.elements).map fun ts => { t with edges := ts }

/-- `tris[k].tri_connections.push(c)` as a list-state update. -/
def pushTriConnection (c : TriToTri) (ts : List TriTopology) (k : Nat) :
    Option (List TriTopology) :=
  modifyAt (fun tt => ⟨tt.tri_connections ++ [c]⟩) ts k

/-- Inner loop of `build_triangles`: for a fixed `(i0, t0)`, scan all
`(i1, t1)` with `i0 ≠ i1`, and on a common edge push
`TriToTri::new(label0 as usize, EdgeToTri::new(i1, label1 as usize, rev))`
at slot `i0`. -/
def triTriInner (i0 : Nat) (t0 : Tri) : Nat → List Tri → List TriTopology →
    Option (List TriTopology)
  | _, [], ts => some ts
  | i1, t1 :: rest, ts => do
    let ts1 ←
      if i0 ≠ i1 then
        match TriToTri.get_common_edge t0 t1 with
        | some result => do
          let edge_to_tri ← EdgeToTri.new i1 result.2.label.toUsize result.2.is_reversed
          let r ← TriToTri.new result.1.toUsize edge_to_tri
          pushTriConnection r ts i0
        | none => some ts
      else some ts
    triTriInner i0 t0 (i1 + 1) rest ts1

/-- Outer loop of `build_triangles`. -/
def triTriOuter (trs : List Tri) : Nat → List Tri → List TriTopology →
    Option (List TriTopology)
  | _, [], ts => some ts
  | i0, t0 :: rest, ts => do
    let ts1 ← triTriInner i0 t0 0 trs ts
    triTriOuter trs (i0 + 1) rest ts1

/-- Core of `build_triangles`: reads only the element arrays. -/
def trisCompute (elements : MeshElements) : Option (List TriTopology) := do
  let ts0 := List.replicate elements.tris.length TriTopology.new
  triTriOuter elements.tris 0 elements.tris ts0

/-- `Topology::build_triangles`; `none` is a propagated panic. -/
def Topology.build_triangles (t : Topology) : Option Topology :=
  (trisCompute t.elements).map fun ts => { t with tris := ts }

/-!
Specification-side definitions.  These follow the wording of the spec and of
the claims, to be compared with the source translations above.
-/

/-- The i-th canonical ordered edge of a triangle:
`(t0,t1)`, `(t1,t2)`, `(t2,t0)`. -/
def canonicalEdge (t : Tri) : EdgeLabel → Nat × Nat
  | .E0 => (t.v0, t.v1)
  | .E1 => (t.v1, t.v2)
  | .E2 => (t.v2, t.v0)

/-- Whether edge `e` matches the canonical edge `l` of `t`, forward
(`rev = false`, stored order equals canonical order) or reversed. -/
def edgeMatchesAt (e : Edge) (t : Tri) (l : EdgeLabel) : Bool → Prop
  | true => (e.v1, e.v0) = canonicalEdge t l
  | false => (e.v0, e.v1) = canonicalEdge t l

instance (e : Edge) (t : Tri) (l : EdgeLabel) :
    (rev : Bool) → Decidable (edgeMatchesAt e t l rev)
  | true => by unfold edgeMatchesAt; infer_instance
  | false => by unfold edgeMatchesAt; infer_instance

/-- The fixed candidate order of the claim: E0-forward, E0-reversed,
E1-forward, E1-reversed, E2-forward, E2-reversed. -/
def specEdgeCandidates : List (EdgeLabel × Bool) :=
  [(.E0, false), (.E0, true), (.E1, false), (.E1, true), (.E2, false), (.E2, true)]

/-- First matching candidate in the fixed order, as the spec describes the
matcher. -/
def spec_edge_position (e : Edge) (t : Tri) : Option EdgePosition :=
  specEdgeCandidates.findSome? fun p =>
    if edgeMatchesAt e t p.1 p.2 then some ⟨p.1, p.2⟩ else none

/-- Edge `e` coincides with some full canonical edge of `t` (in either
orientation). -/
def coincidesFull (e : Edge) (t : Tri) : Prop :=
  ∃ l : EdgeLabel, (e.v0, e.v1) = canonicalEdge t l ∨ (e.v1, e.v0) = canonicalEdge t l

/-- The canonical edge `l` of `t0` as an `Edge` value, as `get_common_edge`
builds it (tagged with `t0.tag`). -/
def edgeOfTri (t0 : Tri) (l : EdgeLabel) : Edge :=
  ⟨(canonicalEdge t0 l).1, (canonicalEdge t0 l).2, t0.tag⟩

/-- First success of the matcher over `t0`'s three canonical edges in label
order, as the spec describes the common-edge extractor. -/
def spec_common_edge (t0 t1 : Tri) : Option (EdgeLabel × EdgePosition) :=
  [EdgeLabel.E0, .E1, .E2].findSome? fun l =>
    (EdgeToTri.get_edge_position (edgeOfTri t0 l) t1).map fun p => (l, p)

/-- Vertex label of an edge slot. -/
def vertexLabelOfSlot : Fin 2 → VertexLabel
  | 0 => .V0
  | 1 => .V1

/-- Vertex label of a triangle slot. -/
def vertexLabelOfTriSlot : Fin 3 → VertexLabel
  | 0 => .V0
  | 1 => .V1
  | 2 => .V2

/-- Edge-to-edge records that inner iteration `(i1, e1)` appends to slot
`i0` of the edge-to-edge pass, in source order of the four endpoint tests. -/
def edgePairConns (i0 : Nat) (e0 : Edge) (i1 : Nat) (e1 : Edge) : List EdgeToEdge :=
  if i1 ≠ i0 then
    (if e1.v0 = e0.v0 then [⟨.V0, ⟨i1, .V0⟩⟩] else []) ++
    (if e1.v1 = e0.v0 then [⟨.V0, ⟨i1, .V1⟩⟩] else []) ++
    (if e1.v0 = e0.v1 then [⟨.V1, ⟨i1, .V0⟩⟩] else []) ++
    (if e1.v1 = e0.v1 then [⟨.V1, ⟨i1, .V1⟩⟩] else [])
  else []

/-- All edge-to-edge records of slot `i0` contributed by the inner scan
starting at index `i1`. -/
def edgeConnsFrom (i0 : Nat) (e0 : Edge) : Nat → List Edge → List EdgeToEdge
  | _, [] => []
  | i1, e1 :: rest => edgePairConns i0 e0 i1 e1 ++ edgeConnsFrom i0 e0 (i1 + 1) rest

/-- Edge-to-triangle record contributed by triangle `(j, t)` to an edge `e`:
one record on a matcher hit, none otherwise. -/
def edgeTriConnAt (j : Nat) (e : Edge) (t : Tri) : List EdgeToTri :=
  match EdgeToTri.get_edge_position e t with
  | some p => [⟨j, p⟩]
  | none => []

/-- All edge-to-triangle records of an edge `e` from the triangle scan
starting at index `j`. -/
def edgeTriConnsFrom (e : Edge) : Nat → List Tri → List EdgeToTri
  | _, [] => []
  | j, t :: rest => edgeTriConnAt j e t ++ edgeTriConnsFrom e (j + 1) rest

/-- Triangle-to-triangle records contributed by inner iteration `(i1, t1)`
to slot `i0`. -/
def triPairConns (i0 : Nat) (t0 : Tri) (i1 : Nat) (t1 : Tri) : List TriToTri :=
  if i0 ≠ i1 then
    match TriToTri.get_common_edge t0 t1 with
    | some r => [⟨r.1, ⟨i1, r.2⟩⟩]
    | none => []
  else []

/-- All triangle-to-triangle records of slot `i0` from the inner scan
starting at index `i1`. -/
def triConnsFrom (i0 : Nat) (t0 : Tri) : Nat → List Tri → List TriToTri
  | _, [] => []
  | i1, t1 :: rest => triPairConns i0 t0 i1 t1 ++ triConnsFrom i0 t0 (i1 + 1) rest

/-- Incidence records vertex `v` receives from edge `(i, e)`: one per slot
of `e` holding `v`, slot 0 first. -/
def vertexEdgeRecsAt (i : Nat) (e : Edge) (v : Nat) : List VertexToEdge :=
  (if e.v0 = v then [⟨i, .V0⟩] else []) ++ (if e.v1 = v then [⟨i, .V1⟩] else [])

/-- All edge-incidence records of vertex `v` from the edge scan starting at
index `i`. -/
def vertexEdgeRecsFrom (v : Nat) : Nat → List Edge → List VertexToEdge
  | _, [] => []
  | i, e :: rest => vertexEdgeRecsAt i e v ++ vertexEdgeRecsFrom v (i + 1) rest

/-- Incidence records vertex `v` receives from triangle `(i, t)`: one per
slot of `t` holding `v`, in slot order. -/
def vertexTriRecsAt (i : Nat) (t : Tri) (v : Nat) : List VertexToTri :=
  (if t.v0 = v then [⟨i, .V0⟩] else []) ++ (if t.v1 = v then [⟨i, .V1⟩] else []) ++
    (if t.v2 = v then [⟨i, .V2⟩] else [])

/-- All triangle-incidence records of vertex `v` from the triangle scan
starting at index `i`. -/
def vertexTriRecsFrom (v : Nat) : Nat → List Tri → List VertexToTri
  | _, [] => []
  | i, t :: rest => vertexTriRecsAt i t v ++ vertexTriRecsFrom v (i + 1) rest

/-- Well-formed element arrays: every vertex index of every element is
below the vertex count. -/
def MeshElements.wellFormed (m : MeshElements) (n : Nat) : Prop :=
  (∀ e ∈ m.edges, e.v0 < n ∧ e.v1 < n) ∧
    (∀ t ∈ m.tris, t.v0 < n ∧ t.v1 < n ∧ t.v2 < n)

instance (m : MeshElements) (n : Nat) : Decidable (m.wellFormed n) := by
  unfold MeshElements.wellFormed; infer_instance

/-- Element arrays of the `build_edges` doctest: edges (0,1), (1,2), (1,3)
and triangle (1,0,3) over four vertices. -/
def sampleElements : MeshElements :=
  ⟨[⟨0, 1, 0⟩, ⟨1, 2, 0⟩, ⟨1, 3, 0⟩], [⟨1, 0, 3, 0⟩]⟩

/-- Fresh topology over the doctest mesh. -/
def sampleTopology : Topology := Topology.new 4 sampleElements

/-- Unit-square element arrays of the `build_triangles` doctest:
triangles (0,1,3) and (1,2,3) over four vertices. -/
def squareElements : MeshElements := ⟨[], [⟨0, 1, 3, 0⟩, ⟨1, 2, 3, 0⟩]⟩

/-- Fresh topology over the square mesh. -/
def squareTopology : Topology := Topology.new 4 squareElements

/-- Element arrays with a dangling vertex index: the edge (0,5) in a mesh
with a single vertex. -/
def danglingElements : MeshElements := ⟨[⟨0, 5, 0⟩], []⟩

/-- Fresh topology over the dangling mesh. -/
def danglingTopology : Topology := Topology.new 1 danglingElements

/-! ## Helper lemmas -/

theorem modifyAt_none_iff {α : Type} (f : α → α) (xs : List α) :
    ∀ k, modifyAt f xs k = none ↔ xs.length ≤ k := by
  induction xs with
  | nil => intro k; simp [modifyAt]
  | cons x xs ih =>
    intro k
    cases k with
    | zero => simp [modifyAt]
    | succ k =>
      rw [show (x :: xs).length = xs.length + 1 from rfl, Nat.succ_le_succ_iff, ← ih k]
      simp only [modifyAt]
      cases h : modifyAt f xs k <;> simp [h]

theorem modifyAt_eq_set {α : Type} (f : α → α) (xs : List α) :
    ∀ (k : Nat) (x : α), xs[k]? = some x →
      modifyAt f xs k = some (xs.set k (f x)) := by
  induction xs with
  | nil => intro k x h; simp at h
  | cons y ys ih =>
    intro k x h
    cases k with
    | zero =>
      simp only [List.getElem?_cons_zero, Option.some.injEq] at h
      subst h
      simp [modifyAt]
    | succ k =>
      simp only [List.getElem?_cons_succ] at h
      simp [modifyAt, ih k x h]

theorem lt_of_getElem?_some {α : Type} {xs : List α} {k : Nat} {x : α}
    (h : xs[k]? = some x) : k < xs.length :=
  (List.getElem?_eq_some_iff.mp h).1

theorem set_self_of_getElem? {α : Type} (xs : List α) :
    ∀ (k : Nat) (x : α), xs[k]? = some x → xs.set k x = xs := by
  induction xs with
  | nil => intro k x h; simp at h
  | cons y ys ih =>
    intro k x h
    cases k with
    | zero =>
      simp only [List.getElem?_cons_zero, Option.some.injEq] at h
      simp [h]
    | succ k =>
      simp only [List.getElem?_cons_succ] at h
      simp [ih k x h]

theorem getElem?_of_lt_length {α : Type} {xs : List α} {k : Nat}
    (h : k < xs.length) : ∃ x, xs[k]? = some x :=
  ⟨xs[k], List.getElem?_eq_some_iff.mpr ⟨h, rfl⟩⟩

theorem edgeEdgeStep_eq (i0 i1 : Nat) (cond : Prop) [Decidable cond]
    (a b : Nat) (la lb : VertexLabel)
    (hB : VertexToEdge.new i1 b = some ⟨i1, lb⟩)
    (hA : EdgeToEdge.new a ⟨i1, lb⟩ = some ⟨la, ⟨i1, lb⟩⟩)
    (ts : List EdgeTopology) (et : EdgeTopology) (h : ts[i0]? = some et) :
    edgeEdgeStep i0 cond a b i1 ts =
      some (ts.set i0 ⟨et.edge_connections ++
        (if cond then [⟨la, ⟨i1, lb⟩⟩] else []), et.tri_connections⟩) := by
  unfold edgeEdgeStep
  split_ifs with hc
  · rw [hB]
    simp only [Option.bind_eq_bind, Option.some_bind]
    rw [hA]
    simp only [Option.some_bind]
    exact modifyAt_eq_set _ ts i0 et h
  · rw [List.append_nil]
    exact congrArg some (set_self_of_getElem? ts i0 et h).symm

theorem edgeEdgeInner_eq (i0 : Nat) (e0 : Edge) :
    ∀ (es : List Edge) (i1 : Nat) (ts : List EdgeTopology) (et : EdgeTopology),
      ts[i0]? = some et →
      edgeEdgeInner i0 e0 i1 es ts =
        some (ts.set i0 ⟨et.edge_connections ++ edgeConnsFrom i0 e0 i1 es,
          et.tri_connections⟩) := by
  intro es
  induction es with
  | nil =>
    intro i1 ts et h
    show some ts = _
    rw [edgeConnsFrom, List.append_nil]
    exact congrArg some (set_self_of_getElem? ts i0 et h).symm
  | cons e1 rest ih =>
    intro i1 ts et h
    have hlt : i0 < ts.length := lt_of_getElem?_some h
    by_cases hne : i1 ≠ i0
    · have unf : edgeEdgeInner i0 e0 i1 (e1 :: rest) ts =
          ((edgeEdgeStep i0 (e1.v0 = e0.v0) 0 0 i1 ts).bind fun ts1 =>
            (edgeEdgeStep i0 (e1.v1 = e0.v0) 0 1 i1 ts1).bind fun ts2 =>
              (edgeEdgeStep i0 (e1.v0 = e0.v1) 1 0 i1 ts2).bind fun ts3 =>
                (edgeEdgeStep i0 (e1.v1 = e0.v1) 1 1 i1 ts3).bind fun ts4 =>
                  edgeEdgeInner i0 e0 (i1 + 1) rest ts4) := by
        simp [edgeEdgeInner, hne]
      have s1 := edgeEdgeStep_eq i0 i1 (e1.v0 = e0.v0) 0 0 .V0 .V0 rfl rfl ts et h
      have h1 : (ts.set i0 (⟨et.edge_connections ++
          (if e1.v0 = e0.v0 then [⟨.V0, ⟨i1, .V0⟩⟩] else []),
          et.tri_connections⟩ : EdgeTopology))[i0]? =
          some ⟨et.edge_connections ++
            (if e1.v0 = e0.v0 then [⟨.V0, ⟨i1, .V0⟩⟩] else []),
            et.tri_connections⟩ :=
        List.getElem?_set_self hlt
      have s2 := edgeEdgeStep_eq i0 i1 (e1.v1 = e0.v0) 0 1 .V0 .V1 rfl rfl _ _ h1
      have h2 := List.getElem?_set_self (l := ts.set i0
          (⟨et.edge_connections ++
            (if e1.v0 = e0.v0 then [⟨.V0, ⟨i1, .V0⟩⟩] else []),
            et.tri_connections⟩ : EdgeTopology))
          (i := i0)
          (a := (⟨(et.edge_connections ++
            (if e1.v0 = e0.v0 then [⟨.V0, ⟨i1, .V0⟩⟩] else [])) ++
            (if e1.v1 = e0.v0 then [⟨.V0, ⟨i1, .V1⟩⟩] else []),
            et.tri_connections⟩ : EdgeTopology)) (by simpa using hlt)
      have s3 := edgeEdgeStep_eq i0 i1 (e1.v0 = e0.v1) 1 0 .V1 .V0 rfl rfl _ _ h2
      have h3 := List.getElem?_set_self (l := (ts.set i0
          (⟨et.edge_connections ++
            (if e1.v0 = e0.v0 then [⟨.V0, ⟨i1, .V0⟩⟩] else []),
            et.tri_connections⟩ : EdgeTopology)).set i0
          (⟨(et.edge_connections ++
            (if e1.v0 = e0.v0 then [⟨.V0, ⟨i1, .V0⟩⟩] else [])) ++
            (if e1.v1 = e0.v0 then [⟨.V0, ⟨i1, .V1⟩⟩] else []),
            et.tri_connections⟩ : EdgeTopology))
          (i := i0)
          (a := (⟨((et.edge_connections ++
            (if e1.v0 = e0.v0 then [⟨.V0, ⟨i1, .V0⟩⟩] else [])) ++
            (if e1.v1 = e0.v0 then [⟨.V0, ⟨i1, .V1⟩⟩] else [])) ++
            (if e1.v0 = e0.v1 then [⟨.V1, ⟨i1, .V0⟩⟩] else []),
            et.tri_connections⟩ : EdgeTopology)) (by simpa using hlt)
      have s4 := edgeEdgeStep_eq i0 i1 (e1.v1 = e0.v1) 1 1 .V1 .V1 rfl rfl _ _ h3
      have h4 := List.getElem?_set_self (l := ((ts.set i0
          (⟨et.edge_connections ++
            (if e1.v0 = e0.v0 then [⟨.V0, ⟨i1, .V0⟩⟩] else []),
            et.tri_connections⟩ : EdgeTopology)).set i0
          (⟨(et.edge_connections ++
            (if e1.v0 = e0.v0 then [⟨.V0, ⟨i1, .V0⟩⟩] else [])) ++
            (if e1.v1 = e0.v0 then [⟨.V0, ⟨i1, .V1⟩⟩] else []),
            et.tri_connections⟩ : EdgeTopology)).set i0
          (⟨((et.edge_connections ++
            (if e1.v0 = e0.v0 then [⟨.V0, ⟨i1, .V0⟩⟩] else [])) ++
            (if e1.v1 = e0.v0 then [⟨.V0, ⟨i1, .V1⟩⟩] else [])) ++
            (if e1.v0 = e0.v1 then [⟨.V1, ⟨i1, .V0⟩⟩] else []),
            et.tri_connections⟩ : EdgeTopology))
          (i := i0)
          (a := (⟨(((et.edge_connections ++
            (if e1.v0 = e0.v0 then [⟨.V0, ⟨i1, .V0⟩⟩] else [])) ++
            (if e1.v1 = e0.v0 then [⟨.V0, ⟨i1, .V1⟩⟩] else [])) ++
            (if e1.v0 = e0.v1 then [⟨.V1, ⟨i1, .V0⟩⟩] else [])) ++
            (if e1.v1 = e0.v1 then [⟨.V1, ⟨i1, .V1⟩⟩] else []),
            et.tri_connections⟩ : EdgeTopology)) (by simpa using hlt)
      rw [unf, s1]
      simp only [Option.bind_eq_bind, Option.some_bind]
      rw [s2]
      simp only [Option.some_bind]
      rw [s3]
      simp only [Option.some_bind]
      rw [s4]
      simp only [Option.some_bind]
      rw [ih (i1 + 1) _ _ h4]
      simp only [List.set_set, Option.some.injEq]
      congr 1
      simp [edgeConnsFrom, edgePairConns, hne, List.append_assoc]
    · push_neg at hne
      have unf : edgeEdgeInner i0 e0 i1 (e1 :: rest) ts =
          edgeEdgeInner i0 e0 (i1 + 1) rest ts := by
        simp [edgeEdgeInner, hne]
      rw [unf, ih (i1 + 1) ts et h]
      simp [edgeConnsFrom, edgePairConns, hne]

theorem modifyAt_getElem? {α : Type} (f : α → α) (xs : List α) (w : Nat) (x : α)
    (hw : xs[w]? = some x) :
    ∀ v y, xs[v]? = some y →
      (xs.set w (f x))[v]? = some (if w = v then f y else y) := by
  intro v y hv
  by_cases hwv : w = v
  · subst hwv
    rw [hw] at hv
    injection hv with hv
    subst hv
    simp [List.getElem?_set_self (lt_of_getElem?_some hw)]
  · simp [List.getElem?_set_ne hwv, hv, hwv]

theorem pushIncidentEdge_eq (c : VertexToEdge) (vs : List VertexTopology)
    (w : Nat) (vt : VertexTopology) (h : vs[w]? = some vt) :
    pushIncidentEdge c vs w =
      some (vs.set w ⟨vt.incident_edges ++ [c], vt.incident_tris⟩) :=
  modifyAt_eq_set _ vs w vt h

theorem pushIncidentEdge_none (c : VertexToEdge) (vs : List VertexTopology)
    (w : Nat) (h : vs.length ≤ w) : pushIncidentEdge c vs w = none :=
  (modifyAt_none_iff _ vs w).mpr h

theorem pushIncidentTri_eq (c : VertexToTri) (vs : List VertexTopology)
    (w : Nat) (vt : VertexTopology) (h : vs[w]? = some vt) :
    pushIncidentTri c vs w =
      some (vs.set w ⟨vt.incident_edges, vt.incident_tris ++ [c]⟩) :=
  modifyAt_eq_set _ vs w vt h

theorem pushIncidentTri_none (c : VertexToTri) (vs : List VertexTopology)
    (w : Nat) (h : vs.length ≤ w) : pushIncidentTri c vs w = none :=
  (modifyAt_none_iff _ vs w).mpr h

theorem pushIncidentTri_getElem? (c : VertexToTri) (vs : List VertexTopology)
    (w : Nat) (x : VertexTopology) (h : vs[w]? = some x) :
    ∀ v y, vs[v]? = some y →
      (vs.set w ⟨x.incident_edges, x.incident_tris ++ [c]⟩)[v]? =
        some (if w = v then ⟨y.incident_edges, y.incident_tris ++ [c]⟩ else y) :=
  fun v y hv => modifyAt_getElem?
    (fun vt => (⟨vt.incident_edges, vt.incident_tris ++ [c]⟩ : VertexTopology))
    vs w x h v y hv

theorem vertexEdgeIterate_eq (i : Nat) (e : Edge) (vs : List VertexTopology)
    (hv0 : e.v0 < vs.length) (hv1 : e.v1 < vs.length) :
    ∃ vs2 : List VertexTopology,
      ((pushIncidentEdge ⟨i, .V0⟩ vs e.v0).bind fun vs1 =>
        pushIncidentEdge ⟨i, .V1⟩ vs1 e.v1) = some vs2 ∧
      vs2.length = vs.length ∧
      ∀ v vt, vs[v]? = some vt →
        vs2[v]? = some (⟨vt.incident_edges ++ vertexEdgeRecsAt i e v,
          vt.incident_tris⟩ : VertexTopology) := by
  obtain ⟨vt0, h0⟩ := getElem?_of_lt_length hv0
  have p1 := modifyAt_eq_set
    (fun vt => (⟨vt.incident_edges ++ [⟨i, .V0⟩], vt.incident_tris⟩ :
      VertexTopology)) vs e.v0 vt0 h0
  have q1 := modifyAt_getElem?
    (fun vt => (⟨vt.incident_edges ++ [⟨i, .V0⟩], vt.incident_tris⟩ :
      VertexTopology)) vs e.v0 vt0 h0
  obtain ⟨vt1, h1⟩ := @getElem?_of_lt_length VertexTopology
    (vs.set e.v0 ⟨vt0.incident_edges ++ [⟨i, .V0⟩], vt0.incident_tris⟩)
    e.v1 (by simpa using hv1)
  have p2 := modifyAt_eq_set
    (fun vt => (⟨vt.incident_edges ++ [⟨i, .V1⟩], vt.incident_tris⟩ :
      VertexTopology)) _ e.v1 vt1 h1
  have q2 := modifyAt_getElem?
    (fun vt => (⟨vt.incident_edges ++ [⟨i, .V1⟩], vt.incident_tris⟩ :
      VertexTopology)) _ e.v1 vt1 h1
  refine ⟨(vs.set e.v0 ⟨vt0.incident_edges ++ [⟨i, .V0⟩], vt0.incident_tris⟩).set
    e.v1 ⟨vt1.incident_edges ++ [⟨i, .V1⟩], vt1.incident_tris⟩, ?_, ?_, ?_⟩
  · show Option.bind (pushIncidentEdge ⟨i, .V0⟩ vs e.v0) _ = _
    unfold pushIncidentEdge
    rw [p1]
    simp only [Option.some_bind]
    exact p2
  · simp
  · intro v vt hv
    have r1 := q1 v vt hv
    have r2 := q2 v _ r1
    rw [r2]
    by_cases c0 : e.v0 = v <;> by_cases c1 : e.v1 = v <;>
      simp [vertexEdgeRecsAt, c0, c1, List.append_assoc]

theorem buildVerticesEdgeLoop_spec :
    ∀ (es : List Edge) (i : Nat) (vs : List VertexTopology),
      (∀ e ∈ es, e.v0 < vs.length ∧ e.v1 < vs.length) →
      ∃ vs' : List VertexTopology, buildVerticesEdgeLoop i es vs = some vs' ∧
        vs'.length = vs.length ∧
        ∀ v vt, vs[v]? = some vt →
          vs'[v]? = some (⟨vt.incident_edges ++ vertexEdgeRecsFrom v i es,
            vt.incident_tris⟩ : VertexTopology) := by
  intro es
  induction es with
  | nil =>
    intro i vs _
    refine ⟨vs, rfl, rfl, ?_⟩
    intro v vt hv
    rw [vertexEdgeRecsFrom, List.append_nil]
    exact hv
  | cons e rest ih =>
    intro i vs hb
    obtain ⟨hv0, hv1⟩ := hb e (by simp)
    obtain ⟨vs2, hit, hlen2, hpt2⟩ := vertexEdgeIterate_eq i e vs hv0 hv1
    obtain ⟨vs', hrec, hlen', hpt'⟩ := ih (i + 1) vs2
      (fun e' he' => hlen2 ▸ hb e' (by simp [he']))
    refine ⟨vs', ?_, hlen2 ▸ hlen', ?_⟩
    · show ((pushIncidentEdge ⟨i, .V0⟩ vs e.v0).bind fun vs1 =>
        (pushIncidentEdge ⟨i, .V1⟩ vs1 e.v1).bind fun vs2 =>
          buildVerticesEdgeLoop (i + 1) rest vs2) = some vs'
      rw [show ((pushIncidentEdge ⟨i, .V0⟩ vs e.v0).bind fun vs1 =>
        (pushIncidentEdge ⟨i, .V1⟩ vs1 e.v1).bind fun vs2 =>
          buildVerticesEdgeLoop (i + 1) rest vs2) =
        (((pushIncidentEdge ⟨i, .V0⟩ vs e.v0).bind fun vs1 =>
          pushIncidentEdge ⟨i, .V1⟩ vs1 e.v1).bind fun vs2 =>
            buildVerticesEdgeLoop (i + 1) rest vs2) from ?_]
      · rw [hit]
        simp only [Option.some_bind]
        exact hrec
      · cases pushIncidentEdge ⟨i, .V0⟩ vs e.v0 <;> rfl
    · intro v vt hv
      rw [hpt' v _ (hpt2 v vt hv)]
      simp [vertexEdgeRecsFrom, List.append_assoc]

theorem buildVerticesEdgeLoop_none :
    ∀ (es : List Edge) (i : Nat) (vs : List VertexTopology),
      (∃ e ∈ es, vs.length ≤ e.v0 ∨ vs.length ≤ e.v1) →
      buildVerticesEdgeLoop i es vs = none := by
  intro es
  induction es with
  | nil => intro i vs h; simp at h
  | cons e rest ih =>
    intro i vs h
    show ((pushIncidentEdge ⟨i, .V0⟩ vs e.v0).bind fun vs1 =>
      (pushIncidentEdge ⟨i, .V1⟩ vs1 e.v1).bind fun vs2 =>
        buildVerticesEdgeLoop (i + 1) rest vs2) = none
    rcases h with ⟨e', he', hbad⟩
    rcases List.mem_cons.mp he' with rfl | he'
    · by_cases hv0 : e'.v0 < vs.length
      · obtain ⟨vt0, h0⟩ := getElem?_of_lt_length hv0
        rw [pushIncidentEdge_eq ⟨i, .V0⟩ vs e'.v0 vt0 h0]
        simp only [Option.some_bind]
        have hnone : pushIncidentEdge (⟨i, .V1⟩ : VertexToEdge)
            (vs.set e'.v0 ⟨vt0.incident_edges ++ [(⟨i, .V0⟩ : VertexToEdge)],
              vt0.incident_tris⟩) e'.v1 = none := by
          refine pushIncidentEdge_none _ _ _ ?_
          simp only [List.length_set]
          rcases hbad with hb | hb
          · exact absurd hv0 (Nat.not_lt.mpr hb)
          · exact hb
        rw [hnone]
        rfl
      · rw [pushIncidentEdge_none ⟨i, .V0⟩ vs e'.v0 (Nat.not_lt.mp hv0)]
        rfl
    · by_cases hv0 : e.v0 < vs.length
      · by_cases hv1 : e.v1 < vs.length
        · obtain ⟨vs2, hit, hlen2, _⟩ := vertexEdgeIterate_eq i e vs hv0 hv1
          rw [show ((pushIncidentEdge ⟨i, .V0⟩ vs e.v0).bind fun vs1 =>
            (pushIncidentEdge ⟨i, .V1⟩ vs1 e.v1).bind fun vs2 =>
              buildVerticesEdgeLoop (i + 1) rest vs2) =
            (((pushIncidentEdge ⟨i, .V0⟩ vs e.v0).bind fun vs1 =>
              pushIncidentEdge ⟨i, .V1⟩ vs1 e.v1).bind fun vs2 =>
                buildVerticesEdgeLoop (i + 1) rest vs2) from ?_]
          · rw [hit]
            simp only [Option.some_bind]
            exact ih (i + 1) vs2 ⟨e', he', hlen2 ▸ hbad⟩
          · cases pushIncidentEdge ⟨i, .V0⟩ vs e.v0 <;> rfl
        · obtain ⟨vt0, h0⟩ := getElem?_of_lt_length hv0
          rw [pushIncidentEdge_eq ⟨i, .V0⟩ vs e.v0 vt0 h0]
          simp only [Option.some_bind]
          have hnone : pushIncidentEdge (⟨i, .V1⟩ : VertexToEdge)
              (vs.set e.v0 ⟨vt0.incident_edges ++ [(⟨i, .V0⟩ : VertexToEdge)],
                vt0.incident_tris⟩) e.v1 = none := by
            refine pushIncidentEdge_none _ _ _ ?_
            simp only [List.length_set]
            exact Nat.not_lt.mp hv1
          rw [hnone]
          rfl
      · rw [pushIncidentEdge_none ⟨i, .V0⟩ vs e.v0 (Nat.not_lt.mp hv0)]
        rfl

theorem vertexTriIterate_eq (i : Nat) (t : Tri) (vs : List VertexTopology)
    (hv0 : t.v0 < vs.length) (hv1 : t.v1 < vs.length) (hv2 : t.v2 < vs.length) :
    ∃ vs3 : List VertexTopology,
      ((pushIncidentTri ⟨i, .V0⟩ vs t.v0).bind fun vs1 =>
        (pushIncidentTri ⟨i, .V1⟩ vs1 t.v1).bind fun vs2 =>
          pushIncidentTri ⟨i, .V2⟩ vs2 t.v2) = some vs3 ∧
      vs3.length = vs.length ∧
      ∀ v vt, vs[v]? = some vt →
        vs3[v]? = some (⟨vt.incident_edges,
          vt.incident_tris ++ vertexTriRecsAt i t v⟩ : VertexTopology) := by
  obtain ⟨vt0, h0⟩ := getElem?_of_lt_length hv0
  have p1 := pushIncidentTri_eq ⟨i, .V0⟩ vs t.v0 vt0 h0
  have q1 := pushIncidentTri_getElem? ⟨i, .V0⟩ vs t.v0 vt0 h0
  obtain ⟨vt1, h1⟩ := @getElem?_of_lt_length VertexTopology
    (vs.set t.v0 ⟨vt0.incident_edges, vt0.incident_tris ++ [⟨i, .V0⟩]⟩)
    t.v1 (by simpa using hv1)
  have p2 := pushIncidentTri_eq ⟨i, .V1⟩ _ t.v1 vt1 h1
  have q2 := pushIncidentTri_getElem? ⟨i, .V1⟩ _ t.v1 vt1 h1
  obtain ⟨vt2, h2⟩ := @getElem?_of_lt_length VertexTopology
    ((vs.set t.v0 ⟨vt0.incident_edges, vt0.incident_tris ++ [⟨i, .V0⟩]⟩).set
      t.v1 ⟨vt1.incident_edges, vt1.incident_tris ++ [⟨i, .V1⟩]⟩)
    t.v2 (by simpa using hv2)
  have p3 := pushIncidentTri_eq ⟨i, .V2⟩ _ t.v2 vt2 h2
  have q3 := pushIncidentTri_getElem? ⟨i, .V2⟩ _ t.v2 vt2 h2
  refine ⟨((vs.set t.v0 ⟨vt0.incident_edges,
    vt0.incident_tris ++ [⟨i, .V0⟩]⟩).set
    t.v1 ⟨vt1.incident_edges, vt1.incident_tris ++ [⟨i, .V1⟩]⟩).set
    t.v2 ⟨vt2.incident_edges, vt2.incident_tris ++ [⟨i, .V2⟩]⟩, ?_, ?_, ?_⟩
  · rw [p1]
    simp only [Option.some_bind]
    rw [p2]
    simp only [Option.some_bind]
    exact p3
  · simp
  · intro v vt hv
    have r1 := q1 v vt hv
    have r2 := q2 v _ r1
    have r3 := q3 v _ r2
    rw [r3]
    by_cases c0 : t.v0 = v <;> by_cases c1 : t.v1 = v <;>
      by_cases c2 : t.v2 = v <;>
        simp [vertexTriRecsAt, c0, c1, c2, List.append_assoc]

theorem buildVerticesTriLoop_spec :
    ∀ (trs : List Tri) (i : Nat) (vs : List VertexTopology),
      (∀ t ∈ trs, t.v0 < vs.length ∧ t.v1 < vs.length ∧ t.v2 < vs.length) →
      ∃ vs' : List VertexTopology, buildVerticesTriLoop i trs vs = some vs' ∧
        vs'.length = vs.length ∧
        ∀ v vt, vs[v]? = some vt →
          vs'[v]? = some (⟨vt.incident_edges,
            vt.incident_tris ++ vertexTriRecsFrom v i trs⟩ : VertexTopology) := by
  intro trs
  induction trs with
  | nil =>
    intro i vs _
    refine ⟨vs, rfl, rfl, ?_⟩
    intro v vt hv
    rw [vertexTriRecsFrom, List.append_nil]
    exact hv
  | cons t rest ih =>
    intro i vs hb
    obtain ⟨hv0, hv1, hv2⟩ := hb t (by simp)
    obtain ⟨vs3, hit, hlen3, hpt3⟩ := vertexTriIterate_eq i t vs hv0 hv1 hv2
    obtain ⟨vs', hrec, hlen', hpt'⟩ := ih (i + 1) vs3
      (fun t' ht' => hlen3 ▸ hb t' (by simp [ht']))
    refine ⟨vs', ?_, hlen3 ▸ hlen', ?_⟩
    · show ((pushIncidentTri ⟨i, .V0⟩ vs t.v0).bind fun vs1 =>
        (pushIncidentTri ⟨i, .V1⟩ vs1 t.v1).bind fun vs2 =>
          (pushIncidentTri ⟨i, .V2⟩ vs2 t.v2).bind fun vs3 =>
            buildVerticesTriLoop (i + 1) rest vs3) = some vs'
      rw [show ((pushIncidentTri ⟨i, .V0⟩ vs t.v0).bind fun vs1 =>
        (pushIncidentTri ⟨i, .V1⟩ vs1 t.v1).bind fun vs2 =>
          (pushIncidentTri ⟨i, .V2⟩ vs2 t.v2).bind fun vs3 =>
            buildVerticesTriLoop (i + 1) rest vs3) =
        (((pushIncidentTri ⟨i, .V0⟩ vs t.v0).bind fun vs1 =>
          (pushIncidentTri ⟨i, .V1⟩ vs1 t.v1).bind fun vs2 =>
            pushIncidentTri ⟨i, .V2⟩ vs2 t.v2).bind fun vs3 =>
              buildVerticesTriLoop (i + 1) rest vs3) from ?_]
      · rw [hit]
        simp only [Option.some_bind]
        exact hrec
      · cases h0 : pushIncidentTri ⟨i, .V0⟩ vs t.v0 with
        | none => rfl
        | some vs1 =>
          simp only [Option.some_bind]
          cases pushIncidentTri ⟨i, .V1⟩ vs1 t.v1 <;> rfl
    · intro v vt hv
      rw [hpt' v _ (hpt3 v vt hv)]
      simp [vertexTriRecsFrom, List.append_assoc]

theorem buildVerticesTriLoop_none :
    ∀ (trs : List Tri) (i : Nat) (vs : List VertexTopology),
      (∃ t ∈ trs, vs.length ≤ t.v0 ∨ vs.length ≤ t.v1 ∨ vs.length ≤ t.v2) →
      buildVerticesTriLoop i trs vs = none := by
  intro trs
  induction trs with
  | nil => intro i vs h; simp at h
  | cons t rest ih =>
    intro i vs h
    show ((pushIncidentTri ⟨i, .V0⟩ vs t.v0).bind fun vs1 =>
      (pushIncidentTri ⟨i, .V1⟩ vs1 t.v1).bind fun vs2 =>
        (pushIncidentTri ⟨i, .V2⟩ vs2 t.v2).bind fun vs3 =>
          buildVerticesTriLoop (i + 1) rest vs3) = none
    rcases h with ⟨t', ht', hbad⟩
    rcases List.mem_cons.mp ht' with rfl | ht'
    · by_cases hv0 : t'.v0 < vs.length
      · obtain ⟨vt0, h0⟩ := getElem?_of_lt_length hv0
        rw [pushIncidentTri_eq ⟨i, .V0⟩ vs t'.v0 vt0 h0]
        simp only [Option.some_bind]
        by_cases hv1 : t'.v1 < (vs.set t'.v0 ⟨vt0.incident_edges,
            vt0.incident_tris ++ [(⟨i, .V0⟩ : VertexToTri)]⟩).length
        · obtain ⟨vt1, h1⟩ := getElem?_of_lt_length hv1
          rw [pushIncidentTri_eq ⟨i, .V1⟩ _ t'.v1 vt1 h1]
          simp only [Option.some_bind]
          have hnone : pushIncidentTri (⟨i, .V2⟩ : VertexToTri)
              ((vs.set t'.v0 ⟨vt0.incident_edges,
                vt0.incident_tris ++ [(⟨i, .V0⟩ : VertexToTri)]⟩).set
                t'.v1 ⟨vt1.incident_edges,
                  vt1.incident_tris ++ [(⟨i, .V1⟩ : VertexToTri)]⟩)
              t'.v2 = none := by
            refine pushIncidentTri_none _ _ _ ?_
            simp only [List.length_set]
            simp only [List.length_set] at hv1
            rcases hbad with hb | hb | hb
            · exact absurd hv0 (Nat.not_lt.mpr hb)
            · exact absurd hv1 (Nat.not_lt.mpr hb)
            · exact hb
          rw [hnone]
          rfl
        · have hnone : pushIncidentTri (⟨i, .V1⟩ : VertexToTri)
              (vs.set t'.v0 ⟨vt0.incident_edges,
                vt0.incident_tris ++ [(⟨i, .V0⟩ : VertexToTri)]⟩)
              t'.v1 = none :=
            pushIncidentTri_none _ _ _ (Nat.not_lt.mp hv1)
          rw [hnone]
          rfl
      · rw [pushIncidentTri_none ⟨i, .V0⟩ vs t'.v0 (Nat.not_lt.mp hv0)]
        rfl
    · by_cases hv0 : t.v0 < vs.length
      · by_cases hv1 : t.v1 < vs.length
        · by_cases hv2 : t.v2 < vs.length
          · obtain ⟨vs3, hit, hlen3, _⟩ := vertexTriIterate_eq i t vs hv0 hv1 hv2
            rw [show ((pushIncidentTri ⟨i, .V0⟩ vs t.v0).bind fun vs1 =>
              (pushIncidentTri ⟨i, .V1⟩ vs1 t.v1).bind fun vs2 =>
                (pushIncidentTri ⟨i, .V2⟩ vs2 t.v2).bind fun vs3 =>
                  buildVerticesTriLoop (i + 1) rest vs3) =
              (((pushIncidentTri ⟨i, .V0⟩ vs t.v0).bind fun vs1 =>
                (pushIncidentTri ⟨i, .V1⟩ vs1 t.v1).bind fun vs2 =>
                  pushIncidentTri ⟨i, .V2⟩ vs2 t.v2).bind fun vs3 =>
                    buildVerticesTriLoop (i + 1) rest vs3) from ?_]
            · rw [hit]
              simp only [Option.some_bind]
              exact ih (i + 1) vs3 ⟨t', ht', hlen3 ▸ hbad⟩
            · cases pushIncidentTri ⟨i, .V0⟩ vs t.v0 with
              | none => rfl
              | some vs1 =>
                simp only [Option.some_bind]
                cases pushIncidentTri ⟨i, .V1⟩ vs1 t.v1 <;> rfl
          · obtain ⟨vt0, h0⟩ := getElem?_of_lt_length hv0
            rw [pushIncidentTri_eq ⟨i, .V0⟩ vs t.v0 vt0 h0]
            simp only [Option.some_bind]
            obtain ⟨vt1, h1⟩ := @getElem?_of_lt_length VertexTopology
              (vs.set t.v0 ⟨vt0.incident_edges,
                vt0.incident_tris ++ [⟨i, .V0⟩]⟩)
              t.v1 (by simpa using hv1)
            rw [pushIncidentTri_eq ⟨i, .V1⟩ _ t.v1 vt1 h1]
            simp only [Option.some_bind]
            have hnone : pushIncidentTri (⟨i, .V2⟩ : VertexToTri)
                ((vs.set t.v0 ⟨vt0.incident_edges,
                  vt0.incident_tris ++ [(⟨i, .V0⟩ : VertexToTri)]⟩).set
                  t.v1 ⟨vt1.incident_edges,
                    vt1.incident_tris ++ [(⟨i, .V1⟩ : VertexToTri)]⟩)
                t.v2 = none := by
              refine pushIncidentTri_none _ _ _ ?_
              simp only [List.length_set]
              exact Nat.not_lt.mp hv2
            rw [hnone]
            rfl
        · obtain ⟨vt0, h0⟩ := getElem?_of_lt_length hv0
          rw [pushIncidentTri_eq ⟨i, .V0⟩ vs t.v0 vt0 h0]
          simp only [Option.some_bind]
          have hnone : pushIncidentTri (⟨i, .V1⟩ : VertexToTri)
              (vs.set t.v0 ⟨vt0.incident_edges,
                vt0.incident_tris ++ [(⟨i, .V0⟩ : VertexToTri)]⟩)
              t.v1 = none := by
            refine pushIncidentTri_none _ _ _ ?_
            simp only [List.length_set]
            exact Nat.not_lt.mp hv1
          rw [hnone]
          rfl
      · rw [pushIncidentTri_none ⟨i, .V0⟩ vs t.v0 (Nat.not_lt.mp hv0)]
        rfl

theorem pushEdgeTriConnection_eq (c : EdgeToTri) (ts : List EdgeTopology)
    (k : Nat) (et : EdgeTopology) (h : ts[k]? = some et) :
    pushEdgeTriConnection c ts k =
      some (ts.set k ⟨et.edge_connections, et.tri_connections ++ [c]⟩) :=
  modifyAt_eq_set _ ts k et h

theorem pushTriConnection_eq (c : TriToTri) (ts : List TriTopology)
    (k : Nat) (tt : TriTopology) (h : ts[k]? = some tt) :
    pushTriConnection c ts k =
      some (ts.set k ⟨tt.tri_connections ++ [c]⟩) :=
  modifyAt_eq_set _ ts k tt h

theorem EdgeToTri_new_toUsize (j : Nat) (p : EdgePosition) :
    EdgeToTri.new j p.label.toUsize p.is_reversed = some ⟨j, p⟩ := by
  rcases p with ⟨l, r⟩
  cases l <;> rfl

theorem TriToTri_new_toUsize (l : EdgeLabel) (nb : EdgeToTri) :
    TriToTri.new l.toUsize nb = some ⟨l, nb⟩ := by
  cases l <;> rfl

theorem edgeTriInner_eq (i : Nat) (e : Edge) :
    ∀ (trs : List Tri) (j : Nat) (ts : List EdgeTopology) (et : EdgeTopology),
      ts[i]? = some et →
      edgeTriInner i e j trs ts =
        some (ts.set i ⟨et.edge_connections,
          et.tri_connections ++ edgeTriConnsFrom e j trs⟩) := by
  intro trs
  induction trs with
  | nil =>
    intro j ts et h
    show some ts = _
    rw [edgeTriConnsFrom, List.append_nil]
    exact congrArg some (set_self_of_getElem? ts i et h).symm
  | cons t rest ih =>
    intro j ts et h
    cases hm : EdgeToTri.get_edge_position e t with
    | none =>
      have unf : edgeTriInner i e j (t :: rest) ts =
          edgeTriInner i e (j + 1) rest ts := by
        simp [edgeTriInner, hm]
      rw [unf, ih (j + 1) ts et h]
      simp [edgeTriConnsFrom, edgeTriConnAt, hm]
    | some p =>
      have unf : edgeTriInner i e j (t :: rest) ts =
          (pushEdgeTriConnection ⟨j, p⟩ ts i).bind fun ts1 =>
            edgeTriInner i e (j + 1) rest ts1 := by
        simp [edgeTriInner, hm, EdgeToTri_new_toUsize]
      rw [unf, pushEdgeTriConnection_eq ⟨j, p⟩ ts i et h]
      simp only [Option.some_bind]
      rw [ih (j + 1) _ _ (List.getElem?_set_self (lt_of_getElem?_some h))]
      simp [List.set_set, edgeTriConnsFrom, edgeTriConnAt, hm, List.append_assoc]

theorem triTriInner_eq (i0 : Nat) (t0 : Tri) :
    ∀ (trs : List Tri) (i1 : Nat) (ts : List TriTopology) (tt : TriTopology),
      ts[i0]? = some tt →
      triTriInner i0 t0 i1 trs ts =
        some (ts.set i0 ⟨tt.tri_connections ++ triConnsFrom i0 t0 i1 trs⟩) := by
  intro trs
  induction trs with
  | nil =>
    intro i1 ts tt h
    show some ts = _
    rw [triConnsFrom, List.append_nil]
    exact congrArg some (set_self_of_getElem? ts i0 tt h).symm
  | cons t1 rest ih =>
    intro i1 ts tt h
    by_cases hne : i0 ≠ i1
    · cases hm : TriToTri.get_common_edge t0 t1 with
      | none =>
        have unf : triTriInner i0 t0 i1 (t1 :: rest) ts =
            triTriInner i0 t0 (i1 + 1) rest ts := by
          simp [triTriInner, hne, hm]
        rw [unf, ih (i1 + 1) ts tt h]
        simp [triConnsFrom, triPairConns, hne, hm]
      | some r =>
        have unf : triTriInner i0 t0 i1 (t1 :: rest) ts =
            (pushTriConnection ⟨r.1, ⟨i1, r.2⟩⟩ ts i0).bind fun ts1 =>
              triTriInner i0 t0 (i1 + 1) rest ts1 := by
          simp [triTriInner, hne, hm, EdgeToTri_new_toUsize, TriToTri_new_toUsize]
        rw [unf, pushTriConnection_eq ⟨r.1, ⟨i1, r.2⟩⟩ ts i0 tt h]
        simp only [Option.some_bind]
        rw [ih (i1 + 1) _ _ (List.getElem?_set_self (lt_of_getElem?_some h))]
        simp [List.set_set, triConnsFrom, triPairConns, hne, hm, List.append_assoc]
    · push_neg at hne
      have unf : triTriInner i0 t0 i1 (t1 :: rest) ts =
          triTriInner i0 t0 (i1 + 1) rest ts := by
        simp [triTriInner, hne]
      rw [unf, ih (i1 + 1) ts tt h]
      simp [triConnsFrom, triPairConns, hne]

theorem edgeEdgeOuter_spec (es : List Edge) :
    ∀ (outer : List Edge) (i0 : Nat) (ts : List EdgeTopology),
      i0 + outer.length ≤ ts.length →
      ∃ ts' : List EdgeTopology, edgeEdgeOuter es i0 outer ts = some ts' ∧
        ts'.length = ts.length ∧
        (∀ j, (j < i0 ∨ i0 + outer.length ≤ j) → ts'[j]? = ts[j]?) ∧
        (∀ k e0 et, outer[k]? = some e0 → ts[i0 + k]? = some et →
          ts'[i0 + k]? = some (⟨et.edge_connections ++
            edgeConnsFrom (i0 + k) e0 0 es,
            et.tri_connections⟩ : EdgeTopology)) := by
  intro outer
  induction outer with
  | nil =>
    intro i0 ts _
    refine ⟨ts, rfl, rfl, fun j _ => rfl, ?_⟩
    intro k e0 et hk
    simp at hk
  | cons e0 rest ih =>
    intro i0 ts hb
    have hlt : i0 < ts.length := by
      simp only [List.length_cons] at hb
      omega
    obtain ⟨et0, h0⟩ := getElem?_of_lt_length hlt
    have hinner := edgeEdgeInner_eq i0 e0 es 0 ts et0 h0
    obtain ⟨ts'', hrec, hlen, hout, hpt⟩ := ih (i0 + 1)
      (ts.set i0 ⟨et0.edge_connections ++ edgeConnsFrom i0 e0 0 es,
        et0.tri_connections⟩)
      (by
        simp only [List.length_set]
        simp only [List.length_cons] at hb
        omega)
    refine ⟨ts'', ?_, by simpa using hlen, ?_, ?_⟩
    · show (edgeEdgeInner i0 e0 0 es ts).bind
        (fun ts1 => edgeEdgeOuter es (i0 + 1) rest ts1) = some ts''
      rw [hinner]
      simp only [Option.some_bind]
      exact hrec
    · intro j hj
      have hne : j ≠ i0 := by
        simp only [List.length_cons] at hj
        omega
      have hj' : j < i0 + 1 ∨ (i0 + 1) + rest.length ≤ j := by
        simp only [List.length_cons] at hj
        omega
      rw [hout j hj', List.getElem?_set_ne (Ne.symm hne)]
    · intro k e0' et hk het
      cases k with
      | zero =>
        simp only [List.getElem?_cons_zero, Option.some.injEq] at hk
        subst hk
        rw [Nat.add_zero] at het ⊢
        rw [h0] at het
        injection het with het
        subst het
        rw [hout i0 (Or.inl (by omega)),
          List.getElem?_set_self hlt]
      | succ k =>
        simp only [List.getElem?_cons_succ] at hk
        have hidx : i0 + (k + 1) = (i0 + 1) + k := by omega
        rw [hidx]
        refine hpt k e0' et hk ?_
        rw [List.getElem?_set_ne (by omega)]
        rw [← hidx]
        exact het

theorem edgeTriOuter_spec (trs : List Tri) :
    ∀ (outer : List Edge) (i : Nat) (ts : List EdgeTopology),
      i + outer.length ≤ ts.length →
      ∃ ts' : List EdgeTopology, edgeTriOuter trs i outer ts = some ts' ∧
        ts'.length = ts.length ∧
        (∀ j, (j < i ∨ i + outer.length ≤ j) → ts'[j]? = ts[j]?) ∧
        (∀ k e et, outer[k]? = some e → ts[i + k]? = some et →
          ts'[i + k]? = some (⟨et.edge_connections,
            et.tri_connections ++ edgeTriConnsFrom e 0 trs⟩ : EdgeTopology)) := by
  intro outer
  induction outer with
  | nil =>
    intro i ts _
    refine ⟨ts, rfl, rfl, fun j _ => rfl, ?_⟩
    intro k e et hk
    simp at hk
  | cons e rest ih =>
    intro i ts hb
    have hlt : i < ts.length := by
      simp only [List.length_cons] at hb
      omega
    obtain ⟨et0, h0⟩ := getElem?_of_lt_length hlt
    have hinner := edgeTriInner_eq i e trs 0 ts et0 h0
    obtain ⟨ts'', hrec, hlen, hout, hpt⟩ := ih (i + 1)
      (ts.set i ⟨et0.edge_connections,
        et0.tri_connections ++ edgeTriConnsFrom e 0 trs⟩)
      (by
        simp only [List.length_set]
        simp only [List.length_cons] at hb
        omega)
    refine ⟨ts'', ?_, by simpa using hlen, ?_, ?_⟩
    · show (edgeTriInner i e 0 trs ts).bind
        (fun ts1 => edgeTriOuter trs (i + 1) rest ts1) = some ts''
      rw [hinner]
      simp only [Option.some_bind]
      exact hrec
    · intro j hj
      have hne : j ≠ i := by
        simp only [List.length_cons] at hj
        omega
      have hj' : j < i + 1 ∨ (i + 1) + rest.length ≤ j := by
        simp only [List.length_cons] at hj
        omega
      rw [hout j hj', List.getElem?_set_ne (Ne.symm hne)]
    · intro k e' et hk het
      cases k with
      | zero =>
        simp only [List.getElem?_cons_zero, Option.some.injEq] at hk
        subst hk
        rw [Nat.add_zero] at het ⊢
        rw [h0] at het
        injection het with het
        subst het
        rw [hout i (Or.inl (by omega)),
          List.getElem?_set_self hlt]
      | succ k =>
        simp only [List.getElem?_cons_succ] at hk
        have hidx : i + (k + 1) = (i + 1) + k := by omega
        rw [hidx]
        refine hpt k e' et hk ?_
        rw [List.getElem?_set_ne (by omega)]
        rw [← hidx]
        exact het

theorem triTriOuter_spec (trs : List Tri) :
    ∀ (outer : List Tri) (i0 : Nat) (ts : List TriTopology),
      i0 + outer.length ≤ ts.length →
      ∃ ts' : List TriTopology, triTriOuter trs i0 outer ts = some ts' ∧
        ts'.length = ts.length ∧
        (∀ j, (j < i0 ∨ i0 + outer.length ≤ j) → ts'[j]? = ts[j]?) ∧
        (∀ k t0 tt, outer[k]? = some t0 → ts[i0 + k]? = some tt →
          ts'[i0 + k]? = some (⟨tt.tri_connections ++
            triConnsFrom (i0 + k) t0 0 trs⟩ : TriTopology)) := by
  intro outer
  induction outer with
  | nil =>
    intro i0 ts _
    refine ⟨ts, rfl, rfl, fun j _ => rfl, ?_⟩
    intro k t0 tt hk
    simp at hk
  | cons t0 rest ih =>
    intro i0 ts hb
    have hlt : i0 < ts.length := by
      simp only [List.length_cons] at hb
      omega
    obtain ⟨tt0, h0⟩ := getElem?_of_lt_length hlt
    have hinner := triTriInner_eq i0 t0 trs 0 ts tt0 h0
    obtain ⟨ts'', hrec, hlen, hout, hpt⟩ := ih (i0 + 1)
      (ts.set i0 ⟨tt0.tri_connections ++ triConnsFrom i0 t0 0 trs⟩)
      (by
        simp only [List.length_set]
        simp only [List.length_cons] at hb
        omega)
    refine ⟨ts'', ?_, by simpa using hlen, ?_, ?_⟩
    · show (triTriInner i0 t0 0 trs ts).bind
        (fun ts1 => triTriOuter trs (i0 + 1) rest ts1) = some ts''
      rw [hinner]
      simp only [Option.some_bind]
      exact hrec
    · intro j hj
      have hne : j ≠ i0 := by
        simp only [List.length_cons] at hj
        omega
      have hj' : j < i0 + 1 ∨ (i0 + 1) + rest.length ≤ j := by
        simp only [List.length_cons] at hj
        omega
      rw [hout j hj', List.getElem?_set_ne (Ne.symm hne)]
    · intro k t0' tt hk htt
      cases k with
      | zero =>
        simp only [List.getElem?_cons_zero, Option.some.injEq] at hk
        subst hk
        rw [Nat.add_zero] at htt ⊢
        rw [h0] at htt
        injection htt with htt
        subst htt
        rw [hout i0 (Or.inl (by omega)),
          List.getElem?_set_self hlt]
      | succ k =>
        simp only [List.getElem?_cons_succ] at hk
        have hidx : i0 + (k + 1) = (i0 + 1) + k := by omega
        rw [hidx]
        refine hpt k t0' tt hk ?_
        rw [List.getElem?_set_ne (by omega)]
        rw [← hidx]
        exact htt

theorem edgesCompute_spec (m : MeshElements) :
    ∃ ts : List EdgeTopology, edgesCompute m = some ts ∧
      ts.length = m.edges.length ∧
      ∀ k e, m.edges[k]? = some e →
        ts[k]? = some (⟨edgeConnsFrom k e 0 m.edges,
          edgeTriConnsFrom e 0 m.tris⟩ : EdgeTopology) := by
  obtain ⟨ts1, hr1, hlen1, _, hpt1⟩ := edgeEdgeOuter_spec m.edges m.edges 0
    (List.replicate m.edges.length EdgeTopology.new) (by simp)
  obtain ⟨ts2, hr2, hlen2, _, hpt2⟩ := edgeTriOuter_spec m.tris m.edges 0 ts1
    (by simp [hlen1])
  refine ⟨ts2, ?_, by simp [hlen2, hlen1], ?_⟩
  · show (edgeEdgeOuter m.edges 0 m.edges
      (List.replicate m.edges.length EdgeTopology.new)).bind
      (fun ts1 => edgeTriOuter m.tris 0 m.edges ts1) = some ts2
    rw [hr1]
    simp only [Option.some_bind]
    exact hr2
  · intro k e hk
    have hklt : k < m.edges.length := lt_of_getElem?_some hk
    have h0 : (List.replicate m.edges.length EdgeTopology.new)[k]? =
        some EdgeTopology.new := List.getElem?_replicate_of_lt hklt
    have h1 := hpt1 k e EdgeTopology.new hk (by simpa using h0)
    have h2 := hpt2 k e _ hk (by simpa using h1)
    simpa [EdgeTopology.new] using h2

theorem trisCompute_spec (m : MeshElements) :
    ∃ ts : List TriTopology, trisCompute m = some ts ∧
      ts.length = m.tris.length ∧
      ∀ k t0, m.tris[k]? = some t0 →
        ts[k]? = some (⟨triConnsFrom k t0 0 m.tris⟩ : TriTopology) := by
  obtain ⟨ts1, hr1, hlen1, _, hpt1⟩ := triTriOuter_spec m.tris m.tris 0
    (List.replicate m.tris.length TriTopology.new) (by simp)
  refine ⟨ts1, hr1, by simp [hlen1], ?_⟩
  intro k t0 hk
  have hklt : k < m.tris.length := lt_of_getElem?_some hk
  have h0 : (List.replicate m.tris.length TriTopology.new)[k]? =
      some TriTopology.new := List.getElem?_replicate_of_lt hklt
  have h1 := hpt1 k t0 TriTopology.new hk (by simpa using h0)
  simpa [TriTopology.new] using h1

theorem verticesCompute_spec (n : Nat) (m : MeshElements)
    (h : m.wellFormed n) :
    ∃ vs : List VertexTopology, verticesCompute n m = some vs ∧
      vs.length = n ∧
      ∀ v, v < n →
        vs[v]? = some (⟨vertexEdgeRecsFrom v 0 m.edges,
          vertexTriRecsFrom v 0 m.tris⟩ : VertexTopology) := by
  obtain ⟨vs1, hr1, hlen1, hpt1⟩ := buildVerticesEdgeLoop_spec m.edges 0
    (List.replicate n VertexTopology.new) (by simpa using h.1)
  obtain ⟨vs2, hr2, hlen2, hpt2⟩ := buildVerticesTriLoop_spec m.tris 0 vs1
    (by
      intro t ht
      rw [hlen1]
      simpa using h.2 t ht)
  refine ⟨vs2, ?_, by simp [hlen2, hlen1], ?_⟩
  · show (buildVerticesEdgeLoop 0 m.edges
      (List.replicate n VertexTopology.new)).bind
      (fun vs1 => buildVerticesTriLoop 0 m.tris vs1) = some vs2
    rw [hr1]
    simp only [Option.some_bind]
    exact hr2
  · intro v hv
    have h0 : (List.replicate n VertexTopology.new)[v]? =
        some VertexTopology.new := List.getElem?_replicate_of_lt hv
    have h1 := hpt1 v VertexTopology.new h0
    have h2 := hpt2 v _ h1
    simpa [VertexTopology.new] using h2

theorem verticesCompute_none (n : Nat) (m : MeshElements)
    (h : ¬ m.wellFormed n) : verticesCompute n m = none := by
  unfold MeshElements.wellFormed at h
  push_neg at h
  by_cases he : ∀ e ∈ m.edges, e.v0 < n ∧ e.v1 < n
  · obtain ⟨vs1, hr1, hlen1, _⟩ := buildVerticesEdgeLoop_spec m.edges 0
      (List.replicate n VertexTopology.new) (by simpa using he)
    obtain ⟨t, ht, hbad⟩ := h he
    show (buildVerticesEdgeLoop 0 m.edges
      (List.replicate n VertexTopology.new)).bind
      (fun vs1 => buildVerticesTriLoop 0 m.tris vs1) = none
    rw [hr1]
    simp only [Option.some_bind]
    refine buildVerticesTriLoop_none m.tris 0 vs1 ⟨t, ht, ?_⟩
    rw [hlen1]
    simp only [List.length_replicate]
    omega
  · push_neg at he
    obtain ⟨e, he', hbad⟩ := he
    show (buildVerticesEdgeLoop 0 m.edges
      (List.replicate n VertexTopology.new)).bind
      (fun vs1 => buildVerticesTriLoop 0 m.tris vs1) = none
    rw [buildVerticesEdgeLoop_none m.edges 0 _ ⟨e, he', by
      simp only [List.length_replicate]
      omega⟩]
    rfl

theorem build_edges_spec (t : Topology) :
    ∃ t' : Topology, Topology.build_edges t = some t' ∧
      t'.nvertices = t.nvertices ∧ t'.elements = t.elements ∧
      t'.vertices = t.vertices ∧ t'.tris = t.tris ∧
      t'.edges.length = t.elements.edges.length ∧
      ∀ k e, t.elements.edges[k]? = some e →
        t'.edges[k]? = some (⟨edgeConnsFrom k e 0 t.elements.edges,
          edgeTriConnsFrom e 0 t.elements.tris⟩ : EdgeTopology) := by
  obtain ⟨ts, hr, hlen, hpt⟩ := edgesCompute_spec t.elements
  refine ⟨{ t with edges := ts }, ?_, rfl, rfl, rfl, rfl, hlen, hpt⟩
  unfold Topology.build_edges
  rw [hr]
  rfl

theorem build_triangles_spec (t : Topology) :
    ∃ t' : Topology, Topology.build_triangles t = some t' ∧
      t'.nvertices = t.nvertices ∧ t'.elements = t.elements ∧
      t'.vertices = t.vertices ∧ t'.edges = t.edges ∧
      t'.tris.length = t.elements.tris.length ∧
      ∀ k t0, t.elements.tris[k]? = some t0 →
        t'.tris[k]? = some (⟨triConnsFrom k t0 0 t.elements.tris⟩ :
          TriTopology) := by
  obtain ⟨ts, hr, hlen, hpt⟩ := trisCompute_spec t.elements
  refine ⟨{ t with tris := ts }, ?_, rfl, rfl, rfl, rfl, hlen, hpt⟩
  unfold Topology.build_triangles
  rw [hr]
  rfl

theorem build_vertices_spec (t : Topology)
    (h : t.elements.wellFormed t.nvertices) :
    ∃ t' : Topology, Topology.build_vertices t = some t' ∧
      t'.nvertices = t.nvertices ∧ t'.elements = t.elements ∧
      t'.edges = t.edges ∧ t'.tris = t.tris ∧
      t'.vertices.length = t.nvertices ∧
      ∀ v, v < t.nvertices →
        t'.vertices[v]? = some (⟨vertexEdgeRecsFrom v 0 t.elements.edges,
          vertexTriRecsFrom v 0 t.elements.tris⟩ : VertexTopology) := by
  obtain ⟨vs, hr, hlen, hpt⟩ := verticesCompute_spec t.nvertices t.elements h
  refine ⟨{ t with vertices := vs }, ?_, rfl, rfl, rfl, rfl, hlen, hpt⟩
  unfold Topology.build_vertices
  rw [hr]
  rfl

theorem build_vertices_none (t : Topology)
    (h : ¬ t.elements.wellFormed t.nvertices) :
    Topology.build_vertices t = none := by
  unfold Topology.build_vertices
  rw [verticesCompute_none t.nvertices t.elements h]
  rfl

theorem build_vertices_idem (t t' : Topology)
    (h : Topology.build_vertices t = some t') :
    Topology.build_vertices t' = some t' := by
  unfold Topology.build_vertices at h ⊢
  cases hc : verticesCompute t.nvertices t.elements with
  | none => rw [hc] at h; simp at h
  | some vs =>
    rw [hc] at h
    simp only [Option.map_some', Option.some.injEq] at h
    subst h
    show (verticesCompute t.nvertices t.elements).map _ = _
    rw [hc]
    rfl

theorem build_edges_idem (t t' : Topology)
    (h : Topology.build_edges t = some t') :
    Topology.build_edges t' = some t' := by
  unfold Topology.build_edges at h ⊢
  cases hc : edgesCompute t.elements with
  | none => rw [hc] at h; simp at h
  | some ts =>
    rw [hc] at h
    simp only [Option.map_some', Option.some.injEq] at h
    subst h
    show (edgesCompute t.elements).map _ = _
    rw [hc]
    rfl

theorem build_triangles_idem (t t' : Topology)
    (h : Topology.build_triangles t = some t') :
    Topology.build_triangles t' = some t' := by
  unfold Topology.build_triangles at h ⊢
  cases hc : trisCompute t.elements with
  | none => rw [hc] at h; simp at h
  | some ts =>
    rw [hc] at h
    simp only [Option.map_some', Option.some.injEq] at h
    subst h
    show (trisCompute t.elements).map _ = _
    rw [hc]
    rfl

theorem edgePairConns_subset (i0 m : Nat) (e0 e1 : Edge) :
    ∀ c ∈ edgePairConns i0 e0 m e1, m ≠ i0 ∧
      (c = ⟨.V0, ⟨m, .V0⟩⟩ ∨ c = ⟨.V0, ⟨m, .V1⟩⟩ ∨
        c = ⟨.V1, ⟨m, .V0⟩⟩ ∨ c = ⟨.V1, ⟨m, .V1⟩⟩) := by
  intro c hc
  unfold edgePairConns at hc
  by_cases h1 : m ≠ i0
  · rw [if_pos h1] at hc
    refine ⟨h1, ?_⟩
    split_ifs at hc <;>
      simp only [List.mem_append, List.mem_singleton, List.mem_nil_iff,
        or_false, false_or] at hc <;> tauto
  · rw [if_neg h1] at hc
    simp at hc

theorem filter_edgePairConns_self (i0 i1 : Nat) (e0 e1 : Edge) :
    (edgePairConns i0 e0 i1 e1).filter
      (fun c => c.neighbour.edge_index == i1) = edgePairConns i0 e0 i1 e1 :=
  List.filter_eq_self.mpr (fun c hc => by
    obtain ⟨-, hcs⟩ := edgePairConns_subset i0 i1 e0 e1 c hc
    rcases hcs with rfl | rfl | rfl | rfl <;> simp)

theorem filter_edgePairConns_ne (i0 i1 m : Nat) (hne : m ≠ i1) (e0 e1 : Edge) :
    (edgePairConns i0 e0 m e1).filter
      (fun c => c.neighbour.edge_index == i1) = [] := by
  rw [List.filter_eq_nil]
  intro c hc
  obtain ⟨-, hcs⟩ := edgePairConns_subset i0 m e0 e1 c hc
  rcases hcs with rfl | rfl | rfl | rfl <;> simp [hne]

theorem edgeConnsFrom_filter_gt (i0 i1 : Nat) (e0 : Edge) :
    ∀ (es : List Edge) (m : Nat), i1 < m →
      (edgeConnsFrom i0 e0 m es).filter
        (fun c => c.neighbour.edge_index == i1) = [] := by
  intro es
  induction es with
  | nil => intro m _; simp [edgeConnsFrom]
  | cons e rest ih =>
    intro m hm
    rw [edgeConnsFrom, List.filter_append,
      filter_edgePairConns_ne i0 i1 m (by omega), List.nil_append]
    exact ih (m + 1) (by omega)

theorem edgeConnsFrom_filter (i0 i1 : Nat) (e0 e1 : Edge) :
    ∀ (es : List Edge) (m : Nat), m ≤ i1 → es[i1 - m]? = some e1 →
      (edgeConnsFrom i0 e0 m es).filter
        (fun c => c.neighbour.edge_index == i1) =
        edgePairConns i0 e0 i1 e1 := by
  intro es
  induction es with
  | nil => intro m hm h; simp at h
  | cons e rest ih =>
    intro m hm h
    rw [edgeConnsFrom, List.filter_append]
    by_cases hmi : m = i1
    · subst hmi
      rw [Nat.sub_self] at h
      simp only [List.getElem?_cons_zero, Option.some.injEq] at h
      subst h
      rw [filter_edgePairConns_self, edgeConnsFrom_filter_gt i0 m e0 rest
        (m + 1) (by omega), List.append_nil]
    · have h' : rest[i1 - (m + 1)]? = some e1 := by
        have hix : i1 - m = (i1 - (m + 1)) + 1 := by omega
        rw [hix] at h
        simpa using h
      rw [filter_edgePairConns_ne i0 i1 m hmi, List.nil_append]
      exact ih (m + 1) (by omega) h'

theorem mem_edgeConnsFrom_ne (i0 : Nat) (e0 : Edge) :
    ∀ (es : List Edge) (m : Nat) (c : EdgeToEdge),
      c ∈ edgeConnsFrom i0 e0 m es → c.neighbour.edge_index ≠ i0 := by
  intro es
  induction es with
  | nil => intro m c h; simp [edgeConnsFrom] at h
  | cons e rest ih =>
    intro m c h
    rw [edgeConnsFrom] at h
    rcases List.mem_append.mp h with h | h
    · obtain ⟨hmne, hcs⟩ := edgePairConns_subset i0 m e0 e c h
      rcases hcs with rfl | rfl | rfl | rfl <;> simpa using hmne
    · exact ih (m + 1) c h

theorem triPairConns_subset (i0 m : Nat) (t0 t1 : Tri) :
    ∀ c ∈ triPairConns i0 t0 m t1, i0 ≠ m ∧ c.neighbour.tri_index = m := by
  intro c hc
  unfold triPairConns at hc
  split_ifs at hc with h1
  · cases hm : TriToTri.get_common_edge t0 t1 with
    | none => rw [hm] at hc; simp at hc
    | some r =>
      rw [hm] at hc
      simp only [List.mem_singleton] at hc
      subst hc
      exact ⟨h1, rfl⟩
  · simp at hc

theorem mem_triConnsFrom_ne (i0 : Nat) (t0 : Tri) :
    ∀ (trs : List Tri) (m : Nat) (c : TriToTri),
      c ∈ triConnsFrom i0 t0 m trs → c.neighbour.tri_index ≠ i0 := by
  intro trs
  induction trs with
  | nil => intro m c h; simp [triConnsFrom] at h
  | cons t1 rest ih =>
    intro m c h
    rw [triConnsFrom] at h
    rcases List.mem_append.mp h with h | h
    · obtain ⟨hmne, hidx⟩ := triPairConns_subset i0 m t0 t1 c h
      rw [hidx]
      exact Ne.symm hmne
    · exact ih (m + 1) c h

theorem edgePairConns_mem (i0 i1 : Nat) (e0 e1 : Edge) (hne : i1 ≠ i0)
    (a b : Fin 2) (hc : e1.vslot b = e0.vslot a) :
    (⟨vertexLabelOfSlot a, ⟨i1, vertexLabelOfSlot b⟩⟩ : EdgeToEdge) ∈
      edgePairConns i0 e0 i1 e1 := by
  unfold edgePairConns
  rw [if_pos hne]
  fin_cases a <;> fin_cases b <;>
    simp only [Edge.vslot, vertexLabelOfSlot, Fin.isValue] at hc ⊢ <;>
      simp [hc]

theorem mem_edgeConnsFrom_of (i0 : Nat) (e0 : Edge) :
    ∀ (es : List Edge) (m k : Nat) (e1 : Edge) (c : EdgeToEdge),
      es[k]? = some e1 → c ∈ edgePairConns i0 e0 (m + k) e1 →
      c ∈ edgeConnsFrom i0 e0 m es := by
  intro es
  induction es with
  | nil => intro m k e1 c h _; simp at h
  | cons e rest ih =>
    intro m k e1 c h hc
    cases k with
    | zero =>
      simp only [List.getElem?_cons_zero, Option.some.injEq] at h
      subst h
      rw [edgeConnsFrom]
      exact List.mem_append_left _ (by simpa using hc)
    | succ k =>
      simp only [List.getElem?_cons_succ] at h
      rw [edgeConnsFrom]
      refine List.mem_append_right _ ?_
      have hix : m + (k + 1) = (m + 1) + k := by omega
      rw [hix] at hc
      exact ih (m + 1) k e1 c h hc

theorem get_edge_position_eq_spec (e : Edge) (t : Tri) :
    EdgeToTri.get_edge_position e t = spec_edge_position e t := by
  unfold EdgeToTri.get_edge_position spec_edge_position specEdgeCandidates
  simp only [List.findSome?, edgeMatchesAt, canonicalEdge, Prod.mk.injEq]
  split_ifs <;> rfl

theorem get_edge_position_none_iff (e : Edge) (t : Tri) :
    EdgeToTri.get_edge_position e t = none ↔ ¬ coincidesFull e t := by
  unfold EdgeToTri.get_edge_position
  split_ifs with h1 h2 h3 h4 h5 h6
  · exact iff_of_false (by simp)
      (not_not_intro ⟨.E0, Or.inl (by simp [canonicalEdge, h1.1, h1.2])⟩)
  · exact iff_of_false (by simp)
      (not_not_intro ⟨.E0, Or.inr (by simp [canonicalEdge, h2.1, h2.2])⟩)
  · exact iff_of_false (by simp)
      (not_not_intro ⟨.E1, Or.inl (by simp [canonicalEdge, h3.1, h3.2])⟩)
  · exact iff_of_false (by simp)
      (not_not_intro ⟨.E1, Or.inr (by simp [canonicalEdge, h4.1, h4.2])⟩)
  · exact iff_of_false (by simp)
      (not_not_intro ⟨.E2, Or.inl (by simp [canonicalEdge, h5.1, h5.2])⟩)
  · exact iff_of_false (by simp)
      (not_not_intro ⟨.E2, Or.inr (by simp [canonicalEdge, h6.1, h6.2])⟩)
  · refine iff_of_true rfl ?_
    rintro ⟨l, hl | hl⟩ <;> cases l <;>
      simp only [canonicalEdge, Prod.mk.injEq] at hl <;> tauto

theorem get_common_edge_eq_spec (t0 t1 : Tri) :
    TriToTri.get_common_edge t0 t1 = spec_common_edge t0 t1 := by
  unfold TriToTri.get_common_edge spec_common_edge edgeOfTri canonicalEdge
  simp only [List.findSome?]
  cases h0 : EdgeToTri.get_edge_position ⟨t0.v0, t0.v1, t0.tag⟩ t1 <;>
    cases h1 : EdgeToTri.get_edge_position ⟨t0.v1, t0.v2, t0.tag⟩ t1 <;>
      cases h2 : EdgeToTri.get_edge_position ⟨t0.v2, t0.v0, t0.tag⟩ t1 <;>
        simp [h0, h1, h2]

theorem get_common_edge_none_iff (t0 t1 : Tri) :
    TriToTri.get_common_edge t0 t1 = none ↔
      ¬ ∃ l : EdgeLabel, coincidesFull (edgeOfTri t0 l) t1 := by
  have h0 := get_edge_position_none_iff (edgeOfTri t0 .E0) t1
  have h1 := get_edge_position_none_iff (edgeOfTri t0 .E1) t1
  have h2 := get_edge_position_none_iff (edgeOfTri t0 .E2) t1
  simp only [edgeOfTri, canonicalEdge] at h0 h1 h2
  unfold TriToTri.get_common_edge
  cases e0 : EdgeToTri.get_edge_position ⟨t0.v0, t0.v1, t0.tag⟩ t1 with
  | some r =>
    refine iff_of_false (by simp) (not_not_intro ⟨.E0, ?_⟩)
    by_contra hc
    rw [e0] at h0
    exact absurd (h0.mpr (by simpa [edgeOfTri, canonicalEdge] using hc)) (by simp)
  | none =>
    cases e1 : EdgeToTri.get_edge_position ⟨t0.v1, t0.v2, t0.tag⟩ t1 with
    | some r =>
      refine iff_of_false (by simp) (not_not_intro ⟨.E1, ?_⟩)
      by_contra hc
      rw [e1] at h1
      exact absurd (h1.mpr (by simpa [edgeOfTri, canonicalEdge] using hc)) (by simp)
    | none =>
      cases e2 : EdgeToTri.get_edge_position ⟨t0.v2, t0.v0, t0.tag⟩ t1 with
      | some r =>
        refine iff_of_false (by simp) (not_not_intro ⟨.E2, ?_⟩)
        by_contra hc
        rw [e2] at h2
        exact absurd (h2.mpr (by simpa [edgeOfTri, canonicalEdge] using hc)) (by simp)
      | none =>
        refine iff_of_true rfl ?_
        rintro ⟨l, hl⟩
        cases l
        · exact absurd (h0.mp e0) (not_not_intro (by simpa [edgeOfTri, canonicalEdge] using hl))
        · exact absurd (h1.mp e1) (not_not_intro (by simpa [edgeOfTri, canonicalEdge] using hl))
        · exact absurd (h2.mp e2) (not_not_intro (by simpa [edgeOfTri, canonicalEdge] using hl))

/-! ## Claim theorems -/

/-- C1: `get_edge_position` compares the edge against the triangle's three
canonical ordered edges in both orientations, returning the first match in
the fixed order E0-forward, E0-reversed, E1-forward, E1-reversed,
E2-forward, E2-reversed, with `is_reversed` set iff the stored order is
opposite the canonical direction; it returns `none` iff the edge coincides
with no full canonical edge; and the three literal examples hold for
pairwise-distinct vertices. -/
theorem matcher_first_match_characterization :
    (∀ (e : Edge) (t : Tri),
      EdgeToTri.get_edge_position e t = spec_edge_position e t) ∧
    (∀ (e : Edge) (t : Tri),
      EdgeToTri.get_edge_position e t = none ↔ ¬ coincidesFull e t) ∧
    (∀ v0 v1 v2 tg tg' : Nat, v0 ≠ v1 → v1 ≠ v2 → v0 ≠ v2 →
      EdgeToTri.get_edge_position ⟨v1, v0, tg⟩ ⟨v0, v1, v2, tg'⟩ =
          some ⟨.E0, true⟩ ∧
        EdgeToTri.get_edge_position ⟨v0, v1, tg⟩ ⟨v0, v1, v2, tg'⟩ =
          some ⟨.E0, false⟩ ∧
        EdgeToTri.get_edge_position ⟨v0, v2, tg⟩ ⟨v0, v1, v2, tg'⟩ =
          some ⟨.E2, true⟩) := by
  refine ⟨get_edge_position_eq_spec, get_edge_position_none_iff, ?_⟩
  intro v0 v1 v2 tg tg' h01 h12 h02
  refine ⟨?_, ?_, ?_⟩ <;>
    simp [EdgeToTri.get_edge_position, h01, h12, h02,
      Ne.symm h01, Ne.symm h12, Ne.symm h02]

/-- Witness for C1: the literal part instantiated at vertices 0, 1, 2. -/
theorem matcher_first_match_characterization_witness :
    EdgeToTri.get_edge_position ⟨1, 0, 7⟩ ⟨0, 1, 2, 9⟩ = some ⟨.E0, true⟩ :=
  (matcher_first_match_characterization.2.2 0 1 2 7 9 (by decide) (by decide)
    (by decide)).1

/-- C2: `get_common_edge` tries `t0`'s three canonical edges against `t1` in
label order and returns the first success, pairing `t0`'s edge label with
`t1`'s matching position; it returns `none` iff no canonical edge of `t0`
coincides with a full canonical edge of `t1`; and for `t0 = (0,1,2)`,
`t1 = (3,2,1)` it returns `(E1, {label: E1, is_reversed: true})`. -/
theorem common_edge_characterization :
    (∀ t0 t1 : Tri, TriToTri.get_common_edge t0 t1 = spec_common_edge t0 t1) ∧
    (∀ t0 t1 : Tri, TriToTri.get_common_edge t0 t1 = none ↔
      ¬ ∃ l : EdgeLabel, coincidesFull (edgeOfTri t0 l) t1) ∧
    TriToTri.get_common_edge ⟨0, 1, 2, 0⟩ ⟨3, 2, 1, 0⟩ =
      some (.E1, ⟨.E1, true⟩) :=
  ⟨get_common_edge_eq_spec, get_common_edge_none_iff, by decide⟩

/-- C3: after `build_edges`, for every ordered pair of distinct edge indices
(i0, i1), the records of `edges[i0].edge_connections` referencing `i1` are
exactly one per coinciding slot pair (a, b), in the source order of the four
endpoint tests, each storing `connecting_vertex = a`,
`neighbour.edge_index = i1` and `neighbour.connecting_vertex = b`; edges
sharing both endpoints yield one record per coinciding slot pair. -/
theorem edge_adjacency_per_pair (t t' : Topology)
    (h : Topology.build_edges t = some t')
    (i0 i1 : Nat) (hne : i0 ≠ i1) (e0 e1 : Edge)
    (h0 : t.elements.edges[i0]? = some e0)
    (h1 : t.elements.edges[i1]? = some e1)
    (et0 : EdgeTopology) (ht0 : t'.edges[i0]? = some et0) :
    et0.edge_connections.filter (fun c => c.neighbour.edge_index == i1) =
      (if e1.v0 = e0.v0 then [⟨.V0, ⟨i1, .V0⟩⟩] else []) ++
      (if e1.v1 = e0.v0 then [⟨.V0, ⟨i1, .V1⟩⟩] else []) ++
      (if e1.v0 = e0.v1 then [⟨.V1, ⟨i1, .V0⟩⟩] else []) ++
      (if e1.v1 = e0.v1 then [⟨.V1, ⟨i1, .V1⟩⟩] else []) := by
  obtain ⟨t'', hb, -, -, -, -, -, hpt⟩ := build_edges_spec t
  rw [h] at hb
  injection hb with hb
  subst hb
  rw [hpt i0 e0 h0] at ht0
  injection ht0 with ht0
  subst ht0
  show (edgeConnsFrom i0 e0 0 t.elements.edges).filter _ = _
  rw [edgeConnsFrom_filter i0 i1 e0 e1 t.elements.edges 0 (Nat.zero_le _)
    (by simpa using h1)]
  unfold edgePairConns
  rw [if_pos (Ne.symm hne)]

/-- Witness for C3: in the doctest mesh, the records of edge 0 referencing
edge 1 are exactly the single record for the coincidence of slot 1 of edge 0
with slot 0 of edge 1. -/
theorem edge_adjacency_per_pair_witness :
    ∃ (t' : Topology) (et0 : EdgeTopology),
      Topology.build_edges sampleTopology = some t' ∧
      t'.edges[0]? = some et0 ∧
      et0.edge_connections.filter (fun c => c.neighbour.edge_index == 1) =
        [⟨.V1, ⟨1, .V0⟩⟩] := by
  refine ⟨_, _, rfl, rfl, ?_⟩
  have := edge_adjacency_per_pair sampleTopology _ rfl 0 1 (by decide)
    ⟨0, 1, 0⟩ ⟨1, 2, 0⟩ rfl rfl _ rfl
  simpa using this

/-- C4 (counterexample): a mesh whose single edge (0,5) has the dangling
vertex index 5 ≥ 1, yet `build_edges` and `build_triangles` complete
successfully instead of producing the claimed fatal out-of-bounds fault;
only `build_vertices` faults. -/
theorem dangling_index_counterexample :
    (¬ danglingTopology.elements.wellFormed danglingTopology.nvertices) ∧
    Topology.build_edges danglingTopology ≠ none ∧
    Topology.build_triangles danglingTopology ≠ none ∧
    Topology.build_vertices danglingTopology = none := by
  exact ⟨by decide, by decide, by decide, by decide⟩

/-- C4 (amended): `build_vertices` produces a fatal out-of-bounds fault iff
some element holds a vertex index ≥ the vertex count, because it is the only
pass that dereferences vertex storage; `build_edges` and `build_triangles`
only compare vertex indices and always complete; on well-formed input no
build pass fails at runtime. -/
theorem dangling_index_fault_semantics (t : Topology) :
    (Topology.build_vertices t = none ↔
      ¬ t.elements.wellFormed t.nvertices) ∧
    (∃ t', Topology.build_edges t = some t') ∧
    (∃ t', Topology.build_triangles t = some t') := by
  refine ⟨⟨?_, build_vertices_none t⟩, ?_, ?_⟩
  · intro h hw
    obtain ⟨t', hb, -, -, -, -, -, -⟩ := build_vertices_spec t hw
    rw [h] at hb
    exact absurd hb (by simp)
  · obtain ⟨t', hb, -, -, -, -, -, -⟩ := build_edges_spec t
    exact ⟨t', hb⟩
  · obtain ⟨t', hb, -, -, -, -, -, -⟩ := build_triangles_spec t
    exact ⟨t', hb⟩

/-- C5: after any successful build pass, regardless of the prior contents of
the output arrays, the output array's length equals the corresponding input
count. -/
theorem build_lengths (t : Topology) :
    (∀ t', Topology.build_vertices t = some t' →
      t'.vertices.length = t.nvertices) ∧
    (∀ t', Topology.build_edges t = some t' →
      t'.edges.length = t.elements.edges.length) ∧
    (∀ t', Topology.build_triangles t = some t' →
      t'.tris.length = t.elements.tris.length) := by
  refine ⟨?_, ?_, ?_⟩
  · intro t' h
    by_cases hw : t.elements.wellFormed t.nvertices
    · obtain ⟨t'', hb, -, -, -, -, hlen, -⟩ := build_vertices_spec t hw
      rw [h] at hb
      injection hb with hb
      subst hb
      exact hlen
    · rw [build_vertices_none t hw] at h
      exact absurd h (by simp)
  · intro t' h
    obtain ⟨t'', hb, -, -, -, -, hlen, -⟩ := build_edges_spec t
    rw [h] at hb
    injection hb with hb
    subst hb
    exact hlen
  · intro t' h
    obtain ⟨t'', hb, -, -, -, -, hlen, -⟩ := build_triangles_spec t
    rw [h] at hb
    injection hb with hb
    subst hb
    exact hlen

/-- Witness for C5: each pass on the doctest mesh yields an output array of
the input count's length. -/
theorem build_lengths_witness :
    (∃ t', Topology.build_vertices sampleTopology = some t' ∧
      t'.vertices.length = sampleTopology.nvertices) ∧
    (∃ t', Topology.build_edges sampleTopology = some t' ∧
      t'.edges.length = sampleTopology.elements.edges.length) ∧
    (∃ t', Topology.build_triangles sampleTopology = some t' ∧
      t'.tris.length = sampleTopology.elements.tris.length) :=
  ⟨⟨_, rfl, (build_lengths sampleTopology).1 _ rfl⟩,
    ⟨_, rfl, (build_lengths sampleTopology).2.1 _ rfl⟩,
    ⟨_, rfl, (build_lengths sampleTopology).2.2 _ rfl⟩⟩

/-- C6: no element is its own neighbour: after `build_edges` no record of
`edges[i].edge_connections` has `neighbour.edge_index = i`, and after
`build_triangles` no record of `tris[i].tri_connections` has
`neighbour.tri_index = i`, for any mesh, degenerate elements included. -/
theorem no_self_adjacency :
    (∀ t t', Topology.build_edges t = some t' →
      ∀ (i : Nat) (et : EdgeTopology) (c : EdgeToEdge),
        t'.edges[i]? = some et → c ∈ et.edge_connections →
          c.neighbour.edge_index ≠ i) ∧
    (∀ t t', Topology.build_triangles t = some t' →
      ∀ (i : Nat) (tt : TriTopology) (c : TriToTri),
        t'.tris[i]? = some tt → c ∈ tt.tri_connections →
          c.neighbour.tri_index ≠ i) := by
  constructor
  · intro t t' h i et c het hc
    obtain ⟨t'', hb, -, -, -, -, hlen, hpt⟩ := build_edges_spec t
    rw [h] at hb
    injection hb with hb
    subst hb
    have hi : i < t.elements.edges.length := by
      have hlt := lt_of_getElem?_some het
      rwa [hlen] at hlt
    obtain ⟨e, he⟩ := getElem?_of_lt_length hi
    rw [hpt i e he] at het
    injection het with het
    subst het
    exact mem_edgeConnsFrom_ne i e t.elements.edges 0 c hc
  · intro t t' h i tt c htt hc
    obtain ⟨t'', hb, -, -, -, -, hlen, hpt⟩ := build_triangles_spec t
    rw [h] at hb
    injection hb with hb
    subst hb
    have hi : i < t.elements.tris.length := by
      have hlt := lt_of_getElem?_some htt
      rwa [hlen] at hlt
    obtain ⟨t0, ht0⟩ := getElem?_of_lt_length hi
    rw [hpt i t0 ht0] at htt
    injection htt with htt
    subst htt
    exact mem_triConnsFrom_ne i t0 t.elements.tris 0 c hc

/-- Witness for C6: in the square mesh, triangle 0's single adjacency record
names triangle 1, not itself. -/
theorem no_self_adjacency_witness :
    ∃ (t' : Topology) (tt : TriTopology) (c : TriToTri),
      Topology.build_triangles squareTopology = some t' ∧
      t'.tris[0]? = some tt ∧ c ∈ tt.tri_connections ∧
      c.neighbour.tri_index ≠ 0 := by
  refine ⟨_, _, ⟨.E1, ⟨1, ⟨.E2, true⟩⟩⟩, rfl, rfl, by decide, ?_⟩
  exact no_self_adjacency.2 squareTopology _ rfl 0 _ _ rfl (by decide)

/-- C7: endpoint-adjacency symmetry: after `build_edges`, whenever distinct
edges i0 and i1 share an endpoint (slot a of i0 coincides with slot b of
i1), edge i0's list holds the record (a, i1, b) and edge i1's list holds the
mirrored record (b, i0, a) with the slots swapped. -/
theorem edge_adjacency_symmetry (t t' : Topology)
    (h : Topology.build_edges t = some t')
    (i0 i1 : Nat) (hne : i0 ≠ i1) (e0 e1 : Edge)
    (h0 : t.elements.edges[i0]? = some e0)
    (h1 : t.elements.edges[i1]? = some e1)
    (a b : Fin 2) (hshare : e0.vslot a = e1.vslot b)
    (et0 et1 : EdgeTopology)
    (ht0 : t'.edges[i0]? = some et0) (ht1 : t'.edges[i1]? = some et1) :
    (⟨vertexLabelOfSlot a, ⟨i1, vertexLabelOfSlot b⟩⟩ : EdgeToEdge) ∈
      et0.edge_connections ∧
    (⟨vertexLabelOfSlot b, ⟨i0, vertexLabelOfSlot a⟩⟩ : EdgeToEdge) ∈
      et1.edge_connections := by
  obtain ⟨t'', hb, -, -, -, -, -, hpt⟩ := build_edges_spec t
  rw [h] at hb
  injection hb with hb
  subst hb
  rw [hpt i0 e0 h0] at ht0
  rw [hpt i1 e1 h1] at ht1
  injection ht0 with ht0
  injection ht1 with ht1
  subst ht0
  subst ht1
  constructor
  · show _ ∈ edgeConnsFrom i0 e0 0 t.elements.edges
    have hm := edgePairConns_mem i0 i1 e0 e1 (Ne.symm hne) a b hshare.symm
    exact mem_edgeConnsFrom_of i0 e0 t.elements.edges 0 i1 e1 _ h1
      (by simpa using hm)
  · show _ ∈ edgeConnsFrom i1 e1 0 t.elements.edges
    have hm := edgePairConns_mem i1 i0 e1 e0 hne b a hshare
    exact mem_edgeConnsFrom_of i1 e1 t.elements.edges 0 i0 e0 _ h0
      (by simpa using hm)

/-- Witness for C7: in the doctest mesh, edges 0 = (0,1) and 1 = (1,2) share
vertex 1 at slot 1 of edge 0 and slot 0 of edge 1; both mirrored records are
present. -/
theorem edge_adjacency_symmetry_witness :
    ∃ (t' : Topology) (et0 et1 : EdgeTopology),
      Topology.build_edges sampleTopology = some t' ∧
      t'.edges[0]? = some et0 ∧ t'.edges[1]? = some et1 ∧
      (⟨.V1, ⟨1, .V0⟩⟩ : EdgeToEdge) ∈ et0.edge_connections ∧
      (⟨.V0, ⟨0, .V1⟩⟩ : EdgeToEdge) ∈ et1.edge_connections := by
  refine ⟨_, _, _, rfl, rfl, rfl, ?_, ?_⟩
  · exact (edge_adjacency_symmetry sampleTopology _ rfl 0 1 (by decide)
      ⟨0, 1, 0⟩ ⟨1, 2, 0⟩ rfl rfl 1 0 (by decide) _ _ rfl rfl).1
  · exact (edge_adjacency_symmetry sampleTopology _ rfl 0 1 (by decide)
      ⟨0, 1, 0⟩ ⟨1, 2, 0⟩ rfl rfl 1 0 (by decide) _ _ rfl rfl).2

/-- C8: each build pass is deterministic and idempotent on an unchanged
mesh: a successful pass run again on its own result returns that result
bit-identically. -/
theorem build_idempotent (t : Topology) :
    (∀ t', Topology.build_vertices t = some t' →
      Topology.build_vertices t' = some t') ∧
    (∀ t', Topology.build_edges t = some t' →
      Topology.build_edges t' = some t') ∧
    (∀ t', Topology.build_triangles t = some t' →
      Topology.build_triangles t' = some t') :=
  ⟨fun t' h => build_vertices_idem t t' h,
    fun t' h => build_edges_idem t t' h,
    fun t' h => build_triangles_idem t t' h⟩

/-- Witness for C8: rebuilding the doctest mesh topology reproduces it. -/
theorem build_idempotent_witness :
    ∃ t', Topology.build_vertices sampleTopology = some t' ∧
      Topology.build_vertices t' = some t' :=
  ⟨_, rfl, (build_idempotent sampleTopology).1 _ rfl⟩

/-- C9: after `build_vertices`, every vertex's incidence lists are exactly
one record per (element index, slot) pair whose element holds the vertex in
that slot, in element order then slot order, recording the element index and
the literal slot. -/
theorem vertex_incidence_characterization (t t' : Topology)
    (h : Topology.build_vertices t = some t') :
    t'.vertices.length = t.nvertices ∧
    ∀ v vt, t'.vertices[v]? = some vt →
      vt.incident_edges = vertexEdgeRecsFrom v 0 t.elements.edges ∧
      vt.incident_tris = vertexTriRecsFrom v 0 t.elements.tris := by
  by_cases hw : t.elements.wellFormed t.nvertices
  · obtain ⟨t'', hb, -, -, -, -, hlen, hpt⟩ := build_vertices_spec t hw
    rw [h] at hb
    injection hb with hb
    subst hb
    refine ⟨hlen, ?_⟩
    intro v vt hv
    have hvlt : v < t.nvertices := by
      have hlt := lt_of_getElem?_some hv
      rwa [hlen] at hlt
    rw [hpt v hvlt] at hv
    injection hv with hv
    subst hv
    exact ⟨rfl, rfl⟩
  · rw [build_vertices_none t hw] at h
    exact absurd h (by simp)

/-- Witness for C9: in the doctest mesh, vertex 1 is referenced by the three
edges (at slots 1, 0, 0) and by the triangle (at slot 0). -/
theorem vertex_incidence_characterization_witness :
    ∃ (t' : Topology) (vt : VertexTopology),
      Topology.build_vertices sampleTopology = some t' ∧
      t'.vertices[1]? = some vt ∧
      vt.incident_edges = [⟨0, .V1⟩, ⟨1, .V0⟩, ⟨2, .V0⟩] ∧
      vt.incident_tris = [⟨0, .V0⟩] := by
  refine ⟨_, _, rfl, rfl, ?_, ?_⟩
  · exact ((vertex_incidence_characterization sampleTopology _ rfl).2
      1 _ rfl).1.trans (by decide)
  · exact ((vertex_incidence_characterization sampleTopology _ rfl).2
      1 _ rfl).2.trans (by decide)

/-- C10: the panic branches of the connection-record constructors are
unreachable from the three build passes: `build_edges` and `build_triangles`
always complete, and `build_vertices` completes exactly on well-formed
input, so the only runtime fault any pass can raise is the vertex-array
indexing of `build_vertices`, never a label-precondition panic. -/
theorem constructor_panics_unreachable (t : Topology) :
    (∃ t', Topology.build_edges t = some t') ∧
    (∃ t', Topology.build_triangles t = some t') ∧
    ((∃ t', Topology.build_vertices t = some t') ↔
      t.elements.wellFormed t.nvertices) := by
  refine ⟨?_, ?_, ?_, ?_⟩
  · obtain ⟨t', hb, -, -, -, -, -, -⟩ := build_edges_spec t
    exact ⟨t', hb⟩
  · obtain ⟨t', hb, -, -, -, -, -, -⟩ := build_triangles_spec t
    exact ⟨t', hb⟩
  · rintro ⟨t', h⟩
    by_contra hw
    rw [build_vertices_none t hw] at h
    exact absurd h (by simp)
  · intro hw
    obtain ⟨t', hb, -, -, -, -, -, -⟩ := build_vertices_spec t hw
    exact ⟨t', hb⟩

end Mersh
